import Mathlib

/-!
# Arseeding: chunk store, data retrieval, HTTP handlers and orders table

A shallow embedding of `src/store.go` (the bolt-backed `Store`), of the data
retrieval, task handlers and bundle item submission of `src/api.go`, of
`src/rawdb/aliyun.go` (`handleOSSErr`, `AliyunDB.Get`) and of the order
queries and updates of `src/wdb.go`, followed by theorems about them.

Conventions.
* A Go `string` is a Lean `String`; a Go `[]byte` is a `Bytes` value, a list of
  byte values. `stringBytes` is the conversion `[]byte(s)`.
* `uint64` values are natural numbers, reduced modulo `2 ^ 64` where the Go
  code can wrap; `int64` values are integers, reduced by `wrapInt64`.
* A Go `error` result is an `Option Error`, `none` being `nil`; a pointer
  result is an `Option`, `none` being the nil pointer.
* A function that can panic returns a `Run`; a loop that may not terminate
  takes a fuel argument and returns `none` when the fuel is used up.
-/

namespace Seeding

/-! ## Bytes and strings -/

/-- A Go byte slice: the list of its byte values. -/
abbrev Bytes := List Nat

/-- UTF-8 encoding of one code point. -/
def utf8EncodeChar (c : Nat) : Bytes :=
  if c < 0x80 then [c]
  else if c < 0x800 then [0xC0 + c / 0x40, 0x80 + c % 0x40]
  else if c < 0x10000 then [0xE0 + c / 0x1000, 0x80 + c / 0x40 % 0x40, 0x80 + c % 0x40]
  else [0xF0 + c / 0x40000, 0x80 + c / 0x1000 % 0x40, 0x80 + c / 0x40 % 0x40, 0x80 + c % 0x40]

/-- The Go conversion `[]byte(s)`: the UTF-8 bytes of the string. -/
def stringBytes (s : String) : Bytes := s.data.flatMap (fun c => utf8EncodeChar c.toNat)

/-! ## Errors and results -/

/-- The Go error values that occur in the embedded code. -/
inductive Error where
  /-- The sentinel `ErrNotExist = errors.New("not exist")` of `store.go` (`schema.ErrNotExist` in `rawdb`). -/
  | ErrNotExist
  /-- The sentinel `ErrDataTooBig`, returned by `txDataByMeta`. -/
  | ErrDataTooBig
  /-- Bolt `ErrDatabaseNotOpen`: the database was closed. -/
  | ErrDatabaseNotOpen
  /-- Bolt `ErrKeyRequired`: `Put` with an empty key. -/
  | ErrKeyRequired
  /-- Bolt `ErrKeyTooLarge`: `Put` with a key longer than `MaxKeySize`. -/
  | ErrKeyTooLarge
  /-- Bolt `ErrValueTooLarge`: `Put` with a value longer than `MaxValueSize`. -/
  | ErrValueTooLarge
  /-- An error value of `encoding/json` (`SyntaxError`, `InvalidUnmarshalError`, ...). -/
  | jsonError
  /-- A `strconv.NumError` wrapping `strconv.ErrSyntax`. -/
  | numSyntax
  /-- A `strconv.NumError` wrapping `strconv.ErrRange`. -/
  | numRange
  /-- A `base64.CorruptInputError`. -/
  | corruptInput
  /-- An `oss.ServiceError` value with its `Code` field. -/
  | ossServiceError (code : String)
  /-- Any other error value, identified by its message. -/
  | other (msg : String)
  deriving DecidableEq, Repr

/-- Outcome of a Go call that either returns its results or panics. -/
inductive Run (α : Type) where
  | ret (a : α)
  | panic
  deriving DecidableEq, Repr

/-! ## crypto/sha256 -/

namespace sha256

/-- Round constants. -/
def K : List Nat := [
  0x428a2f98, 0x71374491, 0xb5c0fbcf, 0xe9b5dba5, 0x3956c25b, 0x59f111f1, 0x923f82a4, 0xab1c5ed5,
  0xd807aa98, 0x12835b01, 0x243185be, 0x550c7dc3, 0x72be5d74, 0x80deb1fe, 0x9bdc06a7, 0xc19bf174,
  0xe49b69c1, 0xefbe4786, 0x0fc19dc6, 0x240ca1cc, 0x2de92c6f, 0x4a7484aa, 0x5cb0a9dc, 0x76f988da,
  0x983e5152, 0xa831c66d, 0xb00327c8, 0xbf597fc7, 0xc6e00bf3, 0xd5a79147, 0x06ca6351, 0x14292967,
  0x27b70a85, 0x2e1b2138, 0x4d2c6dfc, 0x53380d13, 0x650a7354, 0x766a0abb, 0x81c2c92e, 0x92722c85,
  0xa2bfe8a1, 0xa81a664b, 0xc24b8b70, 0xc76c51a3, 0xd192e819, 0xd6990624, 0xf40e3585, 0x106aa070,
  0x19a4c116, 0x1e376c08, 0x2748774c, 0x34b0bcb5, 0x391c0cb3, 0x4ed8aa4a, 0x5b9cca4f, 0x682e6ff3,
  0x748f82ee, 0x78a5636f, 0x84c87814, 0x8cc70208, 0x90befffa, 0xa4506ceb, 0xbef9a3f7, 0xc67178f2]

/-- Rotate a 32-bit word right by `n` bits. -/
def rotr (x n : Nat) : Nat := (x >>> n ||| x <<< (32 - n)) % 2 ^ 32

/-- Big-endian bytes of a 32-bit word. -/
def be32 (w : Nat) : Bytes := [w / 2 ^ 24 % 256, w / 2 ^ 16 % 256, w / 2 ^ 8 % 256, w % 256]

/-- The 32-bit word of four big-endian bytes. -/
def word : Bytes → Nat
  | [a, b, c, d] => ((a * 256 + b) * 256 + c) * 256 + d
  | _ => 0

/-- Message padding: `0x80`, zeros up to 56 modulo 64, then the bit length in 8 bytes. -/
def pad (msg : Bytes) : Bytes :=
  msg ++ 0x80 :: List.replicate ((119 - msg.length % 64) % 64) 0
    ++ (be32 (msg.length * 8 / 2 ^ 32 % 2 ^ 32) ++ be32 (msg.length * 8 % 2 ^ 32))

/-- Split a list into at most `fuel` pieces of `n` elements. -/
def chunksOf {α : Type} (n : Nat) : (fuel : Nat) → List α → List (List α)
  | 0, _ => []
  | fuel + 1, l => if l.isEmpty then [] else l.take n :: chunksOf n fuel (l.drop n)

/-- Extend the words of a block by `n` further words of the message schedule. -/
def schedule (w : List Nat) : (n : Nat) → List Nat
  | 0 => w
  | n + 1 =>
    let t := w.length
    let w15 := w.getD (t - 15) 0
    let w2 := w.getD (t - 2) 0
    let s0 := rotr w15 7 ^^^ rotr w15 18 ^^^ (w15 >>> 3)
    let s1 := rotr w2 17 ^^^ rotr w2 19 ^^^ (w2 >>> 10)
    schedule (w ++ [(w.getD (t - 16) 0 + s0 + w.getD (t - 7) 0 + s1) % 2 ^ 32]) n

/-- The eight working words. -/
structure State where
  a : Nat
  b : Nat
  c : Nat
  d : Nat
  e : Nat
  f : Nat
  g : Nat
  h : Nat

/-- Initial hash value. -/
def init : State :=
  ⟨0x6a09e667, 0xbb67ae85, 0x3c6ef372, 0xa54ff53a, 0x510e527f, 0x9b05688c, 0x1f83d9ab, 0x5be0cd19⟩

/-- One round of the compression function with constant `kw.1` and schedule word `kw.2`. -/
def round (s : State) (kw : Nat × Nat) : State :=
  let S1 := rotr s.e 6 ^^^ rotr s.e 11 ^^^ rotr s.e 25
  let ch := (s.e &&& s.f) ^^^ ((2 ^ 32 - 1 - s.e) &&& s.g)
  let t1 := (s.h + S1 + ch + kw.1 + kw.2) % 2 ^ 32
  let S0 := rotr s.a 2 ^^^ rotr s.a 13 ^^^ rotr s.a 22
  let maj := (s.a &&& s.b) ^^^ (s.a &&& s.c) ^^^ (s.b &&& s.c)
  let t2 := (S0 + maj) % 2 ^ 32
  ⟨(t1 + t2) % 2 ^ 32, s.a, s.b, s.c, (s.d + t1) % 2 ^ 32, s.e, s.f, s.g⟩

/-- Compression of one 64-byte block. -/
def block (s : State) (blk : Bytes) : State :=
  let w := schedule ((chunksOf 4 16 blk).map word) 48
  let r := (K.zip w).foldl round s
  ⟨(s.a + r.a) % 2 ^ 32, (s.b + r.b) % 2 ^ 32, (s.c + r.c) % 2 ^ 32, (s.d + r.d) % 2 ^ 32,
   (s.e + r.e) % 2 ^ 32, (s.f + r.f) % 2 ^ 32, (s.g + r.g) % 2 ^ 32, (s.h + r.h) % 2 ^ 32⟩

/-- The 32-byte SHA-256 digest `sha256.Sum256`. -/
def Sum256 (msg : Bytes) : Bytes :=
  let p := pad msg
  let s := (chunksOf 64 (p.length / 64) p).foldl block init
  [s.a, s.b, s.c, s.d, s.e, s.f, s.g, s.h].flatMap be32

end sha256

/-! ## store.go: serialisation of offsets and keys -/

/-- Go `binary.BigEndian.PutUint64`: the 8 big-endian bytes of a `uint64`. -/
def putUint64 (v : Nat) : Bytes :=
  [v / 2 ^ 56 % 256, v / 2 ^ 48 % 256, v / 2 ^ 40 % 256, v / 2 ^ 32 % 256,
   v / 2 ^ 24 % 256, v / 2 ^ 16 % 256, v / 2 ^ 8 % 256, v % 256]

/-- Source `itob`: `b := make([]byte, 64)` then `binary.BigEndian.PutUint64(b, v)`; the
8 bytes of `v` are followed by 56 zero bytes. -/
def itob (v : Nat) : Bytes := putUint64 v ++ List.replicate 56 0

/-- Source `btoi`: `binary.BigEndian.Uint64(b)` reads the first 8 bytes and panics
(index out of range) on a shorter slice. -/
def btoi : Bytes → Run Nat
  | b0 :: b1 :: b2 :: b3 :: b4 :: b5 :: b6 :: b7 :: _ =>
    .ret (((((((b0 * 256 + b1) * 256 + b2) * 256 + b3) * 256 + b4) * 256 + b5) * 256 + b6) * 256 + b7)
  | _ => .panic

/-- Source `generateOffSetKey`: `sha256.Sum256([]byte(dataRoot + dataSize))`. -/
def generateOffSetKey (dataRoot dataSize : String) : Bytes :=
  sha256.Sum256 (stringBytes (dataRoot ++ dataSize))

/-! ## bbolt: buckets and transactions -/

/-- A bolt bucket: its key/value pairs, at most one per key. -/
abbrev Bucket := List (Bytes × Bytes)

/-- Bolt `MaxKeySize`. -/
def MaxKeySize : Nat := 32768

/-- Bolt `MaxValueSize`. -/
def MaxValueSize : Nat := 2 ^ 31 - 2

/-- Bolt `Bucket.Get`: the value of the key, `none` (nil) when the key does not exist. -/
def Bucket.Get (b : Bucket) (key : Bytes) : Option Bytes :=
  match b with
  | [] => none
  | (k, v) :: rest => if k = key then some v else Bucket.Get rest key

/-- Replace the value of an existing key or add the pair. -/
def Bucket.set (key value : Bytes) : Bucket → Bucket
  | [] => [(key, value)]
  | (k, v) :: rest => if k = key then (key, value) :: rest else (k, v) :: Bucket.set key value rest

/-- Bolt `Bucket.Put` in a writable transaction: the key and value sizes are
checked, then the value of the key is set, overwriting any previous value. -/
def Bucket.Put (b : Bucket) (key value : Bytes) : Except Error Bucket :=
  if key.length = 0 then .error .ErrKeyRequired
  else if key.length > MaxKeySize then .error .ErrKeyTooLarge
  else if value.length > MaxValueSize then .error .ErrValueTooLarge
  else .ok (Bucket.set key value b)

/-- The bolt database of the store with the four buckets `NewStore` creates:
`ChunkBucket` (key: chunkStartOffset, val: chunk), `TxDataEndOffSetBucket`
(key: dataRoot+dataSize, val: txDataEndOffSet), `TxMetaBucket` (key: txId,
val: arTx without data) and `ConstantsBucket`. -/
structure DB where
  /-- False once `Close` was called. -/
  opened : Bool
  ChunkBucket : Bucket
  TxDataEndOffSetBucket : Bucket
  TxMetaBucket : Bucket
  ConstantsBucket : Bucket
  deriving DecidableEq, Repr

/-- Bolt `DB.Update`: runs `fn` in a read-write transaction; the writes are
committed when `fn` returns nil and rolled back when it returns an error. On a
closed database `fn` is not run. -/
def DB.Update (db : DB) (fn : DB → Except Error DB) : DB × Option Error :=
  if db.opened then
    match fn db with
    | .ok tx => (tx, none)
    | .error e => (db, some e)
  else (db, some .ErrDatabaseNotOpen)

/-- Bolt `DB.View`: runs `fn` in a read-only transaction and returns the error `fn`
returns. `vars` are the variables of the caller that the closure assigns, with
their values before the call; the result carries their values after it. On a
closed database `fn` is not run. -/
def DB.View {α : Type} (db : DB) (vars : α) (fn : DB → α → Run (α × Option Error)) :
    Run (α × Option Error) :=
  if db.opened then fn db vars else .ret (vars, some .ErrDatabaseNotOpen)

/-! ## Library types and functions used by the store and the API -/

/-- Modelled from the spec: the declaration of `types.GetChunk` (package
goar/types) is not in the repository; the spec lists the chunk fields
`data_root`, `data_size`, `data_path`, `offset` and `chunk` (base64url bytes). -/
structure GetChunk where
  DataRoot : String
  DataSize : String
  DataPath : String
  Offset : String
  Chunk : String
  deriving DecidableEq, Repr

/-- Modelled from the spec: a tag is a name/value pair (`types.Tag`). -/
structure Tag where
  Name : String
  Value : String
  deriving DecidableEq, Repr

/-- Modelled from the spec: the declaration of `types.Transaction` (package
goar/types) is not in the repository; the spec lists the fields `id`,
`last_tx`, `owner`, `tags`, `target`, `quantity`, `data_root`, `data_size`,
`reward`, `signature`, and the code clears the field `Data`. -/
structure Transaction where
  ID : String
  LastTx : String
  Owner : String
  Tags : List Tag
  Target : String
  Quantity : String
  Data : String
  DataSize : String
  DataRoot : String
  Reward : String
  Signature : String
  deriving DecidableEq, Repr

/-- The functions of `encoding/json` for values of type `α`: `Marshal` is
`json.Marshal`, `decode` is the decoding `json.Unmarshal` performs into a
non-nil destination. The codec is a parameter of the store operations. -/
structure Json (α : Type) where
  Marshal : α → Except Error Bytes
  decode : Bytes → Except Error α

/-- Go `json.Unmarshal(data, v)` with a pointer `v` (`none` is the nil pointer):
"If v is nil or not a pointer, Unmarshal returns an InvalidUnmarshalError";
otherwise the decoded value is stored in the value `v` points to. The result
is what `v` points to after the call, and the error. -/
def Json.Unmarshal {α : Type} (J : Json α) (data : Bytes) (v : Option α) : Option α × Option Error :=
  match v with
  | none => (none, some .jsonError)
  | some a =>
    match J.decode data with
    | .ok a1 => (some a1, none)
    | .error e => (some a, some e)

/-- The loop of `strconv.ParseUint(s, 10, 64)` over the characters of `s`,
with `n` the value read so far. -/
def parseUintLoop : List Char → Nat → Except Error Nat
  | [], n => .ok n
  | c :: cs, n =>
    if '0' ≤ c ∧ c ≤ '9' then
      if n ≥ (2 ^ 64 - 1) / 10 + 1 then .error .numRange
      else if n * 10 + (c.toNat - 48) > 2 ^ 64 - 1 then .error .numRange
      else parseUintLoop cs (n * 10 + (c.toNat - 48))
    else .error .numSyntax

/-- Go `strconv.ParseUint(s, 10, 64)`: a non-empty string of decimal digits
whose value fits in 64 bits; no sign, no underscores. -/
def ParseUint (s : String) : Except Error Nat :=
  if s.data.isEmpty then .error .numSyntax else parseUintLoop s.data 0

/-- The 6-bit value of a character of the URL-safe base64 alphabet. -/
def base64urlValue (c : Char) : Option Nat :=
  if 'A' ≤ c ∧ c ≤ 'Z' then some (c.toNat - 65)
  else if 'a' ≤ c ∧ c ≤ 'z' then some (c.toNat - 97 + 26)
  else if '0' ≤ c ∧ c ≤ '9' then some (c.toNat - 48 + 52)
  else if c = '-' then some 62
  else if c = '_' then some 63
  else none

/-- The 6-bit values of the characters, or `CorruptInputError` at the first
character outside the alphabet. -/
def base64Values : List Char → Except Error (List Nat)
  | [] => .ok []
  | c :: cs =>
    match base64urlValue c with
    | none => .error .corruptInput
    | some v =>
      match base64Values cs with
      | .ok vs => .ok (v :: vs)
      | .error e => .error e

/-- Decoding of the 6-bit values, four at a time; without padding the last
group has two or three values, and a single left-over value is corrupt. -/
def base64Quanta : List Nat → Except Error Bytes
  | a :: b :: c :: d :: rest =>
    match base64Quanta rest with
    | .ok r => .ok ((a * 4 + b / 16) :: (b % 16 * 16 + c / 4) :: (c % 4 * 64 + d) :: r)
    | .error e => .error e
  | [a, b, c] => .ok [a * 4 + b / 16, b % 16 * 16 + c / 4]
  | [a, b] => .ok [a * 4 + b / 16]
  | [_] => .error .corruptInput
  | [] => .ok []

/-- Go `utils.Base64Decode`, which is `base64.RawURLEncoding.DecodeString`:
unpadded URL-safe base64; the decoder skips carriage returns and new lines. -/
def Base64Decode (data : String) : Except Error Bytes :=
  match base64Values (data.data.filter (fun c => c.toNat ≠ 13 ∧ c.toNat ≠ 10)) with
  | .ok vs => base64Quanta vs
  | .error e => .error e

/-! ## store.go: the store -/

/-- The store: `type Store struct { BoltDb *bolt.DB }`. -/
structure Store where
  BoltDb : DB
  deriving DecidableEq, Repr

/-- Source `Store.Close`. -/
def Store.Close (s : Store) : Store × Option Error :=
  ({ BoltDb := { s.BoltDb with opened := false } }, none)

/-- Source `Store.SaveAllDataEndOffset`: one `Put` of `itob(allDataEndOffset)`
under the key "allDataEndOffset" of the constants bucket. -/
def Store.SaveAllDataEndOffset (s : Store) (allDataEndOffset : Nat) : Store × Option Error :=
  let key := stringBytes "allDataEndOffset"
  let val := itob allDataEndOffset
  let r := s.BoltDb.Update (fun tx =>
    match tx.ConstantsBucket.Put key val with
    | .ok bkt => .ok { tx with ConstantsBucket := bkt }
    | .error e => .error e)
  ({ BoltDb := r.1 }, r.2)

/-- Source `Store.LoadAllDataEndOffset`: the error of `View` is discarded; the
closure sets `offset` to 0 when the key is absent and to `btoi(val)` otherwise. -/
def Store.LoadAllDataEndOffset (s : Store) : Run Nat :=
  let key := stringBytes "allDataEndOffset"
  match s.BoltDb.View (0 : Nat) (fun tx _ =>
      match tx.ConstantsBucket.Get key with
      | none => .ret (0, none)
      | some val =>
        match btoi val with
        | .ret offset => .ret (offset, none)
        | .panic => .panic) with
  | .ret (offset, _) => .ret offset
  | .panic => .panic

/-- Source `Store.SaveTxMeta`: clears `Data`, marshals the transaction and puts
it under the key `[]byte(arTx.ID)` of the tx-meta bucket. -/
def Store.SaveTxMeta (J : Json Transaction) (s : Store) (arTx : Transaction) : Store × Option Error :=
  let arTx := { arTx with Data := "" }
  let key := stringBytes arTx.ID
  match J.Marshal arTx with
  | .error err => (s, some err)
  | .ok val =>
    let r := s.BoltDb.Update (fun tx =>
      match tx.TxMetaBucket.Put key val with
      | .ok bkt => .ok { tx with TxMetaBucket := bkt }
      | .error e => .error e)
    ({ BoltDb := r.1 }, r.2)

/-- Source `Store.LoadTxMeta`: the named result `arTx` is a nil pointer and is
never assigned; the closure returns `ErrNotExist` when the key is absent and
otherwise the result of `json.Unmarshal(val, arTx)`. -/
def Store.LoadTxMeta (J : Json Transaction) (s : Store) (arId : String) :
    Run (Option Transaction × Option Error) :=
  let key := stringBytes arId
  s.BoltDb.View (none : Option Transaction) (fun tx arTx =>
    match tx.TxMetaBucket.Get key with
    | none => .ret (arTx, some .ErrNotExist)
    | some val => .ret (J.Unmarshal val arTx))

/-- Source `Store.IsExistTxMeta`: true when `LoadTxMeta` returns `ErrNotExist`. -/
def Store.IsExistTxMeta (J : Json Transaction) (s : Store) (arId : String) : Run Bool :=
  match s.LoadTxMeta J arId with
  | .ret (_, err) => .ret (decide (err = some .ErrNotExist))
  | .panic => .panic

/-- Source `Store.SaveTxDataEndOffSet`: one `Put` of `itob(txDataEndOffset)`
under `generateOffSetKey(dataRoot, dataSize)`. -/
def Store.SaveTxDataEndOffSet (s : Store) (dataRoot dataSize : String) (txDataEndOffset : Nat) :
    Store × Option Error :=
  let r := s.BoltDb.Update (fun tx =>
    match tx.TxDataEndOffSetBucket.Put (generateOffSetKey dataRoot dataSize) (itob txDataEndOffset) with
    | .ok bkt => .ok { tx with TxDataEndOffSetBucket := bkt }
    | .error e => .error e)
  ({ BoltDb := r.1 }, r.2)

/-- Source `Store.LoadTxDataEndOffSet`: the closure returns `ErrNotExist` when
the key is absent and otherwise sets `txDataEndOffset = btoi(val)`. -/
def Store.LoadTxDataEndOffSet (s : Store) (dataRoot dataSize : String) : Run (Nat × Option Error) :=
  s.BoltDb.View (0 : Nat) (fun tx txDataEndOffset =>
    match tx.TxDataEndOffSetBucket.Get (generateOffSetKey dataRoot dataSize) with
    | none => .ret (txDataEndOffset, some .ErrNotExist)
    | some val =>
      match btoi val with
      | .ret n => .ret (n, none)
      | .panic => .panic)

/-- Source `Store.IsExistTxDataEndOffset`. -/
def Store.IsExistTxDataEndOffset (s : Store) (dataRoot dataSize : String) : Run Bool :=
  match s.LoadTxDataEndOffSet dataRoot dataSize with
  | .ret (_, err) => .ret (decide (err = some .ErrNotExist))
  | .panic => .panic

/-- Source `Store.SaveChunk`: marshals the chunk and puts it under
`itob(chunkStartOffset)` of the chunk bucket; it writes nothing else. -/
def Store.SaveChunk (J : Json GetChunk) (s : Store) (chunkStartOffset : Nat) (chunk : GetChunk) :
    Store × Option Error :=
  match J.Marshal chunk with
  | .error err => (s, some err)
  | .ok chunkJs =>
    let r := s.BoltDb.Update (fun tx =>
      match tx.ChunkBucket.Put (itob chunkStartOffset) chunkJs with
      | .ok bkt => .ok { tx with ChunkBucket := bkt }
      | .error err => .error err)
    ({ BoltDb := r.1 }, r.2)

/-- Source `Store.LoadChunk`. The named results `chunk` (a nil pointer) and
`err` are captured by the closure, which assigns `err = ErrNotExist` or
`err = json.Unmarshal(val, chunk)` and returns nil; the statement
`err = s.BoltDb.View(...)` then assigns the value `View` returns to `err`. -/
def Store.LoadChunk (J : Json GetChunk) (s : Store) (chunkStartOffset : Nat) :
    Run (Option GetChunk × Option Error) :=
  match s.BoltDb.View ((none : Option GetChunk), (none : Option Error)) (fun tx vars =>
      match tx.ChunkBucket.Get (itob chunkStartOffset) with
      | none => .ret ((vars.1, some .ErrNotExist), none)
      | some val => .ret (J.Unmarshal val vars.1, none)) with
  | .ret ((chunk, _), viewErr) => .ret (chunk, viewErr)
  | .panic => .panic

/-- Source `Store.IsExistChunk`. -/
def Store.IsExistChunk (J : Json GetChunk) (s : Store) (chunkStartOffset : Nat) : Run Bool :=
  match s.LoadChunk J chunkStartOffset with
  | .ret (_, err) => .ret (decide (err = some .ErrNotExist))
  | .panic => .panic

/-- A freshly created store: open, with four empty buckets. -/
def Store.empty : Store :=
  { BoltDb := { opened := true, ChunkBucket := [], TxDataEndOffSetBucket := [],
                TxMetaBucket := [], ConstantsBucket := [] } }

/-! ## api.go: data retrieval -/

/-- A read of the store made by the data retrieval functions. -/
inductive Access where
  /-- A call of `LoadTxDataEndOffSet(dataRoot, dataSize)`. -/
  | txDataEndOffSet (dataRoot dataSize : String)
  /-- A call of `LoadChunk(chunkStartOffset)`. -/
  | chunk (chunkStartOffset : Nat)
  deriving DecidableEq, Repr

/-- The loop of `getData`:
`for i := 0; uint64(i)+startOffset < txDataEndOffset; { ... i += len(chunkData) }`.
`LoadChunk` is `db.LoadChunk`; `reads` collects the store reads made so far.
Dereferencing a nil chunk (`chunk.Chunk`) panics. One unit of fuel is used per
evaluation of the loop condition. -/
def getDataLoop (LoadChunk : Nat → Run (Option GetChunk × Option Error))
    (startOffset txDataEndOffset : Nat) :
    (fuel : Nat) → (i : Nat) → (data : Bytes) → (reads : List Access) →
      Option (Run (Except Error Bytes) × List Access)
  | 0, _, _, _ => none
  | fuel + 1, i, data, reads =>
    if (i % 2 ^ 64 + startOffset) % 2 ^ 64 < txDataEndOffset then
      let chunkStartOffset := (startOffset + i % 2 ^ 64) % 2 ^ 64
      let reads := reads ++ [Access.chunk chunkStartOffset]
      match LoadChunk chunkStartOffset with
      | .panic => some (.panic, reads)
      | .ret (_, some err) => some (.ret (.error err), reads)
      | .ret (none, none) => some (.panic, reads)
      | .ret (some chunk, none) =>
        match Base64Decode chunk.Chunk with
        | .error err => some (.ret (.error err), reads)
        | .ok chunkData =>
          getDataLoop LoadChunk startOffset txDataEndOffset fuel (i + chunkData.length)
            (data ++ chunkData) reads
    else some (.ret (.ok data), reads)

/-- Go runtime `maxAlloc` on 64-bit platforms (48 heap address bits): the
largest size in bytes that `makeslice` accepts. -/
def maxAlloc : Nat := 2 ^ 48

/-- Source `getData`, with the two reads of the store it makes as parameters:
`LoadTxDataEndOffSet` is `db.LoadTxDataEndOffSet` and `LoadChunk` is
`db.LoadChunk`. The result is the returned bytes or error, and the store
reads made; it is `none` when the loop has not ended within `fuel`
evaluations of its condition. `data := make([]byte, 0, size)` panics
("makeslice: cap out of range") when the size exceeds `maxAlloc`, before any
read of the store; running out of memory below that size is not modelled. -/
def getDataWith (LoadTxDataEndOffSet : String → String → Run (Nat × Option Error))
    (LoadChunk : Nat → Run (Option GetChunk × Option Error))
    (fuel : Nat) (dataRoot dataSize : String) :
    Option (Run (Except Error Bytes) × List Access) :=
  match ParseUint dataSize with
  | .error err => some (.ret (.error err), [])
  | .ok size =>
    if size = 0 then some (.ret (.ok []), [])
    else if size > maxAlloc then some (.panic, [])
    else
      match LoadTxDataEndOffSet dataRoot dataSize with
      | .panic => some (.panic, [Access.txDataEndOffSet dataRoot dataSize])
      | .ret (_, some err) => some (.ret (.error err), [Access.txDataEndOffSet dataRoot dataSize])
      | .ret (txDataEndOffset, none) =>
        let startOffset := (txDataEndOffset + 2 ^ 64 - size + 1) % 2 ^ 64
        getDataLoop LoadChunk startOffset txDataEndOffset fuel 0 []
          [Access.txDataEndOffSet dataRoot dataSize]

/-- Source `getData` on the store `db`. -/
def getData (J : Json GetChunk) (fuel : Nat) (dataRoot dataSize : String) (db : Store) :
    Option (Run (Except Error Bytes) × List Access) :=
  getDataWith db.LoadTxDataEndOffSet (db.LoadChunk J) fuel dataRoot dataSize

/-- Source `txDataByMeta`: `ErrDataTooBig` when the parsed size exceeds
`50*128*1024`, otherwise the result of `getData`. -/
def txDataByMeta (J : Json GetChunk) (fuel : Nat) (txMeta : Transaction) (db : Store) :
    Option (Run (Except Error Bytes) × List Access) :=
  match ParseUint txMeta.DataSize with
  | .error err => some (.ret (.error err), [])
  | .ok size =>
    if size > 50 * 128 * 1024 then some (.ret (.error .ErrDataTooBig), [])
    else getData J fuel txMeta.DataRoot txMeta.DataSize db

/-! ## A concrete JSON codec for runs on concrete inputs -/

/-- The lower-case hexadecimal digit of a value below 16. -/
def hexDigit (n : Nat) : Char := if n < 10 then Char.ofNat (48 + n) else Char.ofNat (87 + n)

/-- The value of a hexadecimal digit, 0 for any other character. -/
def hexValue (c : Char) : Nat :=
  if '0' ≤ c ∧ c ≤ '9' then c.toNat - 48
  else if 'a' ≤ c ∧ c ≤ 'f' then c.toNat - 87
  else if 'A' ≤ c ∧ c ≤ 'F' then c.toNat - 55
  else 0

/-- One character of a JSON string literal as `encoding/json` writes it: the
double quote and the backslash after a backslash, new line, carriage return
and tab as `\n`, `\r`, `\t`, and the other control characters, `<`, `>`, `&`,
U+2028 and U+2029 as `\u` with four hexadecimal digits. -/
def jsonEscape (c : Char) : List Char :=
  if c = '"' ∨ c = '\\' then ['\\', c]
  else if c.toNat = 10 then ['\\', 'n']
  else if c.toNat = 13 then ['\\', 'r']
  else if c.toNat = 9 then ['\\', 't']
  else if c.toNat < 32 ∨ c = '<' ∨ c = '>' ∨ c = '&' ∨ c.toNat = 0x2028 ∨ c.toNat = 0x2029 then
    ['\\', 'u', hexDigit (c.toNat / 4096 % 16), hexDigit (c.toNat / 256 % 16),
      hexDigit (c.toNat / 16 % 16), hexDigit (c.toNat % 16)]
  else [c]

/-- JSON string literal: the escaped characters between double quotes. -/
def jsonQuote (s : String) : List Char :=
  '"' :: s.data.flatMap jsonEscape ++ ['"']

/-- The string literals of a JSON text, in order, with their escapes
resolved; `cur` is the literal being read, reversed, when the scan is inside
one. -/
def jsonLiterals : List Char → Option (List Char) → List String
  | [], _ => []
  | c :: cs, none => if c = '"' then jsonLiterals cs (some []) else jsonLiterals cs none
  | c :: cs, some cur =>
    if c = '"' then String.mk cur.reverse :: jsonLiterals cs none
    else if c = '\\' then
      match cs with
      | 'u' :: h3 :: h2 :: h1 :: h0 :: ds =>
        jsonLiterals ds (some (Char.ofNat
          (((hexValue h3 * 16 + hexValue h2) * 16 + hexValue h1) * 16 + hexValue h0) :: cur))
      | d :: ds =>
        jsonLiterals ds (some ((if d = 'n' then Char.ofNat 10
          else if d = 'r' then Char.ofNat 13
          else if d = 't' then Char.ofNat 9
          else if d = 'b' then Char.ofNat 8
          else if d = 'f' then Char.ofNat 12
          else d) :: cur))
      | [] => []
    else jsonLiterals cs (some (c :: cur))

/-- JSON member: quoted name, colon, quoted value. -/
def jsonMember (name value : String) : List Char := jsonQuote name ++ ':' :: jsonQuote value

/-- JSON text of a chunk, members in the order of the struct fields. -/
def GetChunk.toJson (c : GetChunk) : List Char :=
  '\x7b' :: jsonMember "data_root" c.DataRoot ++ ',' :: jsonMember "data_size" c.DataSize
    ++ ',' :: jsonMember "data_path" c.DataPath ++ ',' :: jsonMember "offset" c.Offset
    ++ ',' :: jsonMember "chunk" c.Chunk ++ ['\x7d']

/-- A JSON codec for chunks, for runs on concrete inputs: `Marshal` writes the
object `encoding/json` writes for the five string fields, and `decode` reads
the field values back from such an object; `decode` after `Marshal` is exact
on ASCII field values. -/
def chunkJson : Json GetChunk where
  Marshal c := .ok (stringBytes (String.mk c.toJson))
  decode data :=
    match jsonLiterals (data.map Char.ofNat) none with
    | [_, a, _, b, _, c, _, d, _, e] => .ok ⟨a, b, c, d, e⟩
    | _ => .error .jsonError

/-- JSON text of the tags: an array of name/value objects. -/
def tagsToJson : List Tag → List Char
  | [] => []
  | [t] => '\x7b' :: jsonMember "name" t.Name ++ ',' :: jsonMember "value" t.Value ++ ['\x7d']
  | t :: ts =>
    '\x7b' :: jsonMember "name" t.Name ++ ',' :: jsonMember "value" t.Value ++ '\x7d' :: ',' :: tagsToJson ts

/-- JSON text of a transaction, members in the order of the struct fields. -/
def Transaction.toJson (t : Transaction) : List Char :=
  '\x7b' :: jsonMember "id" t.ID ++ ',' :: jsonMember "last_tx" t.LastTx
    ++ ',' :: jsonMember "owner" t.Owner
    ++ ',' :: jsonQuote "tags" ++ ':' :: '[' :: tagsToJson t.Tags ++ ']'
    :: ',' :: jsonMember "target" t.Target ++ ',' :: jsonMember "quantity" t.Quantity
    ++ ',' :: jsonMember "data" t.Data ++ ',' :: jsonMember "data_size" t.DataSize
    ++ ',' :: jsonMember "data_root" t.DataRoot ++ ',' :: jsonMember "reward" t.Reward
    ++ ',' :: jsonMember "signature" t.Signature ++ ['\x7d']

/-- The tags at the head of a list of string literals, and the literals after them. -/
def tagsOfLiterals : List String → List Tag × List String
  | n :: name :: v :: value :: rest =>
    if n = "name" then ((⟨name, value⟩ : Tag) :: (tagsOfLiterals rest).1, (tagsOfLiterals rest).2)
    else ([], n :: name :: v :: value :: rest)
  | l => ([], l)

/-- A JSON codec for transactions, for runs on concrete inputs: `Marshal`
writes the object of the modelled fields with the string escapes of
`encoding/json`, and `decode` reads the field values back from such an
object; `decode` after `Marshal` is exact on ASCII field values. -/
def txJson : Json Transaction where
  Marshal t := .ok (stringBytes (String.mk t.toJson))
  decode data :=
    match jsonLiterals (data.map Char.ofNat) none with
    | _ :: id :: _ :: lastTx :: _ :: owner :: _ :: rest =>
      match (tagsOfLiterals rest).2 with
      | [_, target, _, quantity, _, dat, _, dataSize, _, dataRoot, _, reward, _, signature] =>
        .ok ⟨id, lastTx, owner, (tagsOfLiterals rest).1, target, quantity, dat, dataSize, dataRoot,
          reward, signature⟩
      | _ => .error .jsonError
    | _ => .error .jsonError

/-! ## api.go: price -/

/-- Reduction of an integer to the `int64` range (two's complement wrap-around). -/
def wrapInt64 (x : Int) : Int := (x + 2 ^ 63) % 2 ^ 64 - 2 ^ 63

/-- Modelled from the spec: `schema.ArFee` is not in the repository; the fee
cache holds a base fee and a fee per chunk, used as `int64` by `calculatePrice`. -/
structure ArFee where
  Base : Int
  PerChunk : Int
  deriving DecidableEq, Repr

/-- Modelled from the spec: `types.MAX_CHUNK_SIZE`, 256 KiB. -/
def MAX_CHUNK_SIZE : Int := 256 * 1024

/-- Go `fmt.Sprintf("%d", x)`: the decimal digits, after a minus sign when negative. -/
def sprintfD (x : Int) : String :=
  if x < 0 then "-" ++ Nat.repr x.natAbs else Nat.repr x.natAbs

/-- Source `calculatePrice`, with `int64` arithmetic; `/` truncates toward zero. -/
def calculatePrice (fee : ArFee) (dataSize : Int) : String :=
  let count : Int :=
    if dataSize > 0 then wrapInt64 (wrapInt64 ((wrapInt64 (dataSize - 1)).tdiv MAX_CHUNK_SIZE) + 1)
    else 0
  let totPrice := wrapInt64 (fee.Base + wrapInt64 (count * fee.PerChunk))
  sprintfD totPrice

/-- The number of chunks in the words of the specification: none for a size
that is not positive, otherwise the size divided by 262144, rounded up. -/
def chunkNum (dataSize : Int) : Int :=
  if dataSize ≤ 0 then 0 else ⌈(dataSize : ℚ) / 262144⌉

/-! ## rawdb/aliyun.go -/

/-- Source constant `ossErrorNoSuchKey`. -/
def ossErrorNoSuchKey : String := "NoSuchKey"

/-- Source `handleOSSErr`: the named result `err` starts as nil; for an
`oss.ServiceError` it is set to `ErrNotExist` only when the code is
`NoSuchKey`; for any other error type it is set to the argument. -/
def handleOSSErr (ossErr : Error) : Option Error :=
  let err : Option Error := none
  match ossErr with
  | .ossServiceError code => if code = ossErrorNoSuchKey then some .ErrNotExist else err
  | _ => some ossErr

/-- An OSS bucket handle: `GetObject(key)` fails with an error or opens a body,
given here with the result of `io.ReadAll(body)`. -/
structure OssBucket where
  GetObject : String → Except Error (Bytes × Option Error)

/-- The OSS client: `client.Bucket(name)` gives a bucket handle or an error. -/
structure OssClient where
  Bucket : String → Except Error OssBucket

/-- Source `AliyunDB`. -/
structure AliyunDB where
  bucketPrefix : String
  client : OssClient

/-- Source `AliyunDB.Get`; `getS3Bucket`, which is not in the repository files,
is a parameter. -/
def AliyunDB.Get (getS3Bucket : String → String → String) (a : AliyunDB) (bucket key : String) :
    Bytes × Option Error :=
  match a.client.Bucket (getS3Bucket a.bucketPrefix bucket) with
  | .error err => ([], some err)
  | .ok bkt =>
    match bkt.GetObject key with
    | .error err => ([], handleOSSErr err)
    | .ok (data, err) => (data, err)

/-! ## api.go: task handlers -/

/-- Go `strings.Contains(s, substr)`. -/
def stringsContains (s substr : String) : Bool :=
  s.data.tails.any (fun t => substr.data.isPrefixOf t)

/-- Modelled from the spec: `schema.TaskTypeBroadcastMeta`. -/
def TaskTypeBroadcastMeta : String := "broadcast-meta"

/-- Modelled from the spec: `schema.TaskTypeBroadcast`. -/
def TaskTypeBroadcast : String := "broadcast"

/-- Modelled from the spec: `schema.TaskTypeSync`. -/
def TaskTypeSync : String := "sync"

/-- Modelled from the spec: `assembleTaskId` is not in the repository files;
`task_id = tkType + "-" + arId`. -/
def assembleTaskId (arId tktype : String) : String := tktype ++ "-" ++ arId

/-- Modelled from the spec: the task record `schema.Task` (without its timestamp). -/
structure Task where
  ArId : String
  TaskType : String
  CountSuccessed : Nat
  CountFailed : Nat
  TotalNodes : Nat
  Status : String
  deriving DecidableEq, Repr

/-- Modelled from the spec: the task manager, which is not in the repository
files: the in-memory task table keyed by task id, and the dispatch queue of
tokens, oldest first. -/
structure TaskManager where
  tasks : List (String × Task)
  taskCh : List String
  deriving DecidableEq, Repr

/-- Modelled from the spec: the task buckets of the blob store, which
`store.go` of the repository files does not have: the pending pool of task
ids and the durable task records. Writes fail on a closed store. -/
structure TaskStore where
  opened : Bool
  TaskIdPendingPool : List String
  TaskBucket : List (String × Task)
  deriving DecidableEq, Repr

/-- The part of the server `Arseeding` used by the task handlers. -/
structure Arseeding where
  store : TaskStore
  taskMg : TaskManager
  deriving DecidableEq, Repr

/-- Modelled from the spec: `TaskManager.AddTask` adds an in-memory task
record for the task id unless one is present. -/
def TaskManager.AddTask (m : TaskManager) (arId tktype : String) : TaskManager :=
  if (m.tasks.lookup (assembleTaskId arId tktype)).isSome then m
  else { m with tasks := m.tasks ++ [(assembleTaskId arId tktype, ⟨arId, tktype, 0, 0, 0, "pending"⟩)] }

/-- Modelled from the spec: `TaskManager.DelTask` removes the in-memory record. -/
def TaskManager.DelTask (m : TaskManager) (arId tktype : String) : TaskManager :=
  { m with tasks := m.tasks.filter (fun p => p.1 ≠ assembleTaskId arId tktype) }

/-- Modelled from the spec: `TaskManager.PutToTkChan` enqueues a dispatch token. -/
def TaskManager.PutToTkChan (m : TaskManager) (arId tktype : String) : TaskManager :=
  { m with taskCh := m.taskCh ++ [assembleTaskId arId tktype] }

/-- Modelled from the spec: `TaskManager.GetTask` returns the in-memory record,
nil when there is none. -/
def TaskManager.GetTask (m : TaskManager) (arId tktype : String) : Option Task :=
  m.tasks.lookup (assembleTaskId arId tktype)

/-- Modelled from the spec: `Store.PutTaskPendingPool` inserts the task id in
the pending pool. -/
def TaskStore.PutTaskPendingPool (s : TaskStore) (taskId : String) : TaskStore × Option Error :=
  if s.opened then
    (if taskId ∈ s.TaskIdPendingPool then s
     else { s with TaskIdPendingPool := s.TaskIdPendingPool ++ [taskId] }, none)
  else (s, some .ErrDatabaseNotOpen)

/-- Modelled from the spec: `Store.LoadTask` returns the durable record of the
task id, or `ErrNotExist`. -/
def TaskStore.LoadTask (s : TaskStore) (taskId : String) : Option Task × Option Error :=
  if s.opened then
    match s.TaskBucket.lookup taskId with
    | some tk => (some tk, none)
    | none => (none, some .ErrNotExist)
  else (none, some .ErrDatabaseNotOpen)

/-- Modelled from the spec: `Kill(arId, tkType)` marks the task failed and
drops the pending-pool entry and the cache entry; a task without an in-memory
record is not found. -/
def Arseeding.CloseTask (s : Arseeding) (arId tktype : String) : Arseeding × Option Error :=
  match s.taskMg.GetTask arId tktype with
  | none => (s, some .ErrNotExist)
  | some tk =>
    ({ store := { s.store with
         TaskIdPendingPool := s.store.TaskIdPendingPool.filter (fun t => t ≠ assembleTaskId arId tktype),
         TaskBucket := (assembleTaskId arId tktype, { tk with Status := "failed" }) ::
           s.store.TaskBucket.filter (fun p => p.1 ≠ assembleTaskId arId tktype) },
       taskMg := s.taskMg.DelTask arId tktype }, none)

/-- Source `Arseeding.registerTask`. -/
def Arseeding.registerTask (s : Arseeding) (arId tktype : String) : Arseeding × Option Error :=
  let s := { s with taskMg := s.taskMg.AddTask arId tktype }
  match s.store.PutTaskPendingPool (assembleTaskId arId tktype) with
  | (_, some err) => ({ s with taskMg := s.taskMg.DelTask arId tktype }, some err)
  | (store, none) => ({ store := store, taskMg := s.taskMg.PutToTkChan arId tktype }, none)

/-- The body written by a handler. -/
inductive Body where
  /-- A JSON string: a message or the text of an error. -/
  | text (s : String)
  /-- A JSON task record. -/
  | task (tk : Task)
  deriving DecidableEq, Repr

/-- The response written by a handler: status code and body. -/
structure Response where
  status : Nat
  body : Body
  deriving DecidableEq, Repr

/-- The text of an error, `err.Error()`. -/
def Error.text : Error → String
  | .ErrNotExist => "not exist"
  | .ErrDataTooBig => "tx data too big"
  | .ErrDatabaseNotOpen => "database not open"
  | .ErrKeyRequired => "key required"
  | .ErrKeyTooLarge => "key too large"
  | .ErrValueTooLarge => "value too large"
  | .jsonError => "json error"
  | .numSyntax => "invalid syntax"
  | .numRange => "value out of range"
  | .corruptInput => "illegal base64 data"
  | .ossServiceError code => code
  | .other msg => msg

/-- The three task type names concatenated, the first argument of
`strings.Contains` in the task handlers. -/
def taskTypeNames : String := TaskTypeSync ++ TaskTypeBroadcast ++ TaskTypeBroadcastMeta

/-- Source `Arseeding.postTask`, with the route parameters `arid` and `taskType`. -/
def Arseeding.postTask (s : Arseeding) (arid tkType : String) : Arseeding × Response :=
  match Base64Decode arid with
  | .error _ => (s, ⟨400, .text "arId incorrect"⟩)
  | .ok txHash =>
    if txHash.length ≠ 32 then (s, ⟨400, .text "arId incorrect"⟩)
    else if !stringsContains taskTypeNames tkType then (s, ⟨400, .text "tktype not exist"⟩)
    else
      match s.registerTask arid tkType with
      | (s1, some err) => (s1, ⟨400, .text err.text⟩)
      | (s1, none) => (s1, ⟨200, .text "ok"⟩)

/-- Source `Arseeding.killTask`, with the route parameters `arid` and `taskType`. -/
def Arseeding.killTask (s : Arseeding) (arid tktype : String) : Arseeding × Response :=
  if !stringsContains taskTypeNames tktype then (s, ⟨400, .text "tktype not exist"⟩)
  else
    match Base64Decode arid with
    | .error _ => (s, ⟨400, .text "arId incorrect"⟩)
    | .ok txHash =>
      if txHash.length ≠ 32 then (s, ⟨400, .text "arId incorrect"⟩)
      else
        match s.CloseTask arid tktype with
        | (s1, some err) => (s1, ⟨404, .text err.text⟩)
        | (s1, none) => (s1, ⟨200, .text "ok"⟩)

/-- Source `Arseeding.getTask`, with the route parameters `arid` and `taskType`. -/
def Arseeding.getTask (s : Arseeding) (arid tktype : String) : Response :=
  if !stringsContains taskTypeNames tktype then ⟨400, .text "tktype not exist"⟩
  else
    match Base64Decode arid with
    | .error _ => ⟨400, .text "arId incorrect"⟩
    | .ok txHash =>
      if txHash.length ≠ 32 then ⟨400, .text "arId incorrect"⟩
      else
        match s.taskMg.GetTask arid tktype with
        | some tk => ⟨200, .task tk⟩
        | none =>
          match s.store.LoadTask (assembleTaskId arid tktype) with
          | (_, some err) => ⟨404, .text err.text⟩
          | (some tk, none) => ⟨200, .task tk⟩
          | (none, none) => ⟨200, .text "null"⟩

/-- A server with an open store and no tasks. -/
def Arseeding.empty : Arseeding :=
  { store := { opened := true, TaskIdPendingPool := [], TaskBucket := [] },
    taskMg := { tasks := [], taskCh := [] } }

/-! ## wdb.go: the orders table -/

/-- Modelled from the spec: `schema.UnPayment`, the payment status of an unpaid order. -/
def UnPayment : String := "unpaid"

/-- Modelled from the spec: `schema.SuccPayment`, the payment status of a paid order. -/
def SuccPayment : String := "paid"

/-- Modelled from the spec: `schema.ExpiredPayment`, the payment status of an expired order. -/
def ExpiredPayment : String := "expired"

/-- Modelled from the spec: `schema.WaitOnChain`, the on-chain status `waiting`. -/
def WaitOnChain : String := "waiting"

/-- Modelled from the spec: `schema.PendingOnChain`, the on-chain status `pending`. -/
def PendingOnChain : String := "pending"

/-- Modelled from the spec: `schema.SuccOnChain`, the on-chain status `success`. -/
def SuccOnChain : String := "success"

/-- Modelled from the spec: `schema.FailedOnChain`, the on-chain status `failed`. -/
def FailedOnChain : String := "failed"

/-- Modelled from the spec: the row type `schema.Order` is not in the
repository files; the spec lists the fields `id` (auto), `item_id`, `signer`,
`signer_owner`, `size`, `currency`, `decimals`, `fee`, `payment_expired_time`,
`payment_status`, `payment_id`, `on_chain_status`, `expected_block`, `sort`
(the field `SortFlag`, as `Sort` is a keyword) and `api_key`. -/
structure Order where
  ID : Nat
  ItemId : String
  Signer : String
  SignerOwner : String
  Size : Int
  Currency : String
  Decimals : Int
  Fee : String
  PaymentExpiredTime : Int
  PaymentStatus : String
  PaymentId : String
  OnChainStatus : String
  ExpectedBlock : Int
  SortFlag : Bool
  ApiKey : String
  deriving DecidableEq, Repr

/-- The relational database behind a gorm handle: the rows of the `orders`
table, in the order in which the database yields them to a query that has no
ORDER BY clause. -/
structure GormDB where
  orders : List Order
  deriving DecidableEq, Repr

/-- Source `Wdb`: `type Wdb struct { Db *gorm.DB }`. -/
structure Wdb where
  Db : GormDB
  deriving DecidableEq, Repr

/-- Source `Wdb.UpdateOrdToExpiredStatus`: `Where("id = ?", id).Updates(data)`
with `payment_status = ExpiredPayment` and `on_chain_status = FailedOnChain`;
the only condition is the id. -/
def Wdb.UpdateOrdToExpiredStatus (w : Wdb) (id : Nat) : Wdb × Option Error :=
  ({ Db := { orders := w.Db.orders.map (fun o =>
      if o.ID = id then { o with PaymentStatus := ExpiredPayment, OnChainStatus := FailedOnChain }
      else o) } }, none)

/-- Source `Wdb.UpdateOrderPay`: on the handle `tx` when it is not nil and on
`w.Db` otherwise, `Where("id = ?", id).Updates(data)` with `payment_status =
paymentStatus` and `payment_id = everHash`; the only condition is the id. The
result is the database of the handle after the update. -/
def Wdb.UpdateOrderPay (w : Wdb) (id : Nat) (everHash paymentStatus : String)
    (tx : Option GormDB) : GormDB × Option Error :=
  let db := match tx with
    | some t => t
    | none => w.Db
  ({ orders := db.orders.map (fun o =>
      if o.ID = id then { o with PaymentStatus := paymentStatus, PaymentId := everHash }
      else o) }, none)

/-- Source `Wdb.GetNeedOnChainOrders`: the query of `GetNeedOnChainOrdersSorted`
with `sort = false`. -/
def Wdb.GetNeedOnChainOrders (w : Wdb) : List Order × Option Error :=
  ((w.Db.orders.filter (fun o =>
      o.PaymentStatus = SuccPayment ∧ o.OnChainStatus = WaitOnChain ∧ o.SortFlag = false)).take 2000,
   none)

/-- Source `Wdb.GetNeedOnChainOrdersSorted`:
`Where("payment_status = ? and on_chain_status = ? and sort = ?", SuccPayment,
WaitOnChain, true).Limit(2000).Find(&res)`, a query without ORDER BY: the
matching rows in the order the database yields them, at most 2000. -/
def Wdb.GetNeedOnChainOrdersSorted (w : Wdb) : List Order × Option Error :=
  ((w.Db.orders.filter (fun o =>
      o.PaymentStatus = SuccPayment ∧ o.OnChainStatus = WaitOnChain ∧ o.SortFlag = true)).take 2000,
   none)

/-! ## api.go: submission of a bundle item -/

/-- Go `io.EOF`. -/
def ioEOF : Error := .other "EOF"

/-- The request body as a reader: the results `(buf[:n], err)` of the
successive calls of `Body.Read(buf)`; once they are used up, `Read` returns
`(0, io.EOF)`. -/
abbrev BodyReader := List (Bytes × Option Error)

/-- How the read loop of `submitItem` ends. -/
inductive ReadOutcome where
  /-- The size check failed: 400 "allow max item size is 100 MB". -/
  | tooLarge
  /-- A read failed with an error other than `io.EOF`: 400 "read req failed". -/
  | readFailed
  /-- A read returned no bytes and the loop was left with these bytes read. -/
  | done (itemBinary : Bytes)
  deriving DecidableEq, Repr

/-- The read loop of `submitItem`: the size check on the bytes read so far,
then one `Read`, the error check, the `n == 0` exit, and the append. -/
def submitItemLoop (AllowMaxItemSize : Nat) : BodyReader → Bytes → ReadOutcome
  | [], itemBinary =>
    if itemBinary.length > AllowMaxItemSize then .tooLarge else .done itemBinary
  | (data, err) :: rest, itemBinary =>
    if itemBinary.length > AllowMaxItemSize then .tooLarge
    else if err ≠ none ∧ err ≠ some ioEOF then .readFailed
    else if data.length = 0 then .done itemBinary
    else submitItemLoop AllowMaxItemSize rest (itemBinary ++ data)

/-- Modelled from the spec: the decoded ANS-104 bundle item (`types.BundleItem`
of goar): `id`, `signature`, `owner`, `target`, `anchor`, `tags`, `data`. -/
structure BundleItem where
  Id : String
  Signature : String
  Owner : String
  Target : String
  Anchor : String
  Tags : List Tag
  Data : String
  deriving DecidableEq, Repr

/-- What a call of `submitItem` did: the status of the response, the argument
of `DecodeBundleItem` and of `ProcessSubmitItem` when they were called, and the
order of a 200 response. -/
structure SubmitOutcome where
  status : Nat
  decodeArg : Option Bytes
  processArg : Option BundleItem
  order : Option Order
  deriving DecidableEq, Repr

/-- Source `Arseeding.submitItem`. The constant `schema.AllowMaxItemSize` and
the functions `utils.DecodeBundleItem` and `ProcessSubmitItem`, which are not
in the repository files, are parameters; `contentType` is the request header,
`body` the request body (`none` when nil) and `currency` the route parameter. -/
def submitItem (AllowMaxItemSize : Nat) (DecodeBundleItem : Bytes → Except Error BundleItem)
    (ProcessSubmitItem : BundleItem → String → Except Error Order)
    (contentType : String) (body : Option BodyReader) (currency : String) : SubmitOutcome :=
  if contentType ≠ "application/octet-stream" then ⟨400, none, none, none⟩
  else
    match body with
    | none => ⟨400, none, none, none⟩
    | some reads =>
      match submitItemLoop AllowMaxItemSize reads [] with
      | .tooLarge => ⟨400, none, none, none⟩
      | .readFailed => ⟨400, none, none, none⟩
      | .done itemBinary =>
        match DecodeBundleItem itemBinary with
        | .error _ => ⟨400, some itemBinary, none, none⟩
        | .ok item =>
          match ProcessSubmitItem item currency with
          | .error _ => ⟨400, some itemBinary, some item, none⟩
          | .ok ord => ⟨200, some itemBinary, some item, some ord⟩

/-! ## Big-endian value of a byte string -/

/-- The value of a byte string read as one unsigned big-endian integer over
its whole length. -/
def beValue (b : Bytes) : Nat := b.foldl (fun acc x => acc * 256 + x) 0

/-! ## Concrete inputs -/

/-- A chunk of the transaction with data root "root" and data size 1 whose
`chunk` field "AQ" is the base64url text of the single byte 1. -/
def chunkOneByte : GetChunk := ⟨"root", "1", "", "0", "AQ"⟩

/-- The store after the end offset 1 was saved for ("root", "1") and
`chunkOneByte` was saved at start offset 1. -/
def storeOneByte : Store :=
  ((Store.empty.SaveTxDataEndOffSet "root" "1" 1).1.SaveChunk chunkJson 1 chunkOneByte).1

/-- A one-byte chunk of the transaction with data root "root" and data size 3. -/
def chunkOfThree (offset chunk : String) : GetChunk := ⟨"root", "3", "", offset, chunk⟩

/-- The store after the end offset 3 was saved for ("root", "3") and three
one-byte chunks (bytes 1, 2, 3) were saved at start offsets 1, 2 and 3. -/
def storeThreeBytes : Store :=
  ((((Store.empty.SaveTxDataEndOffSet "root" "3" 3).1.SaveChunk chunkJson 1
    (chunkOfThree "0" "AQ")).1.SaveChunk chunkJson 2
    (chunkOfThree "1" "Ag")).1.SaveChunk chunkJson 3 (chunkOfThree "2" "Aw")).1

/-- A transaction with id "id1", data size 1 and data "AQ". -/
def txOne : Transaction := ⟨"id1", "", "", [], "", "", "AQ", "1", "root", "", ""⟩

/-- The store after the end offset 5 was saved for ("root", "1"). -/
def storeEndFive : Store := (Store.empty.SaveTxDataEndOffSet "root" "1" 5).1

/-- A transaction whose data size is one byte above the single-shot limit. -/
def txAboveLimit : Transaction := { txOne with DataSize := "6553601" }

/-- A transaction whose data size is the single-shot limit. -/
def txAtLimit : Transaction := { txOne with DataSize := "6553600" }

/-- An OSS client whose every `GetObject` fails with the service error `AccessDenied`. -/
def deniedClient : OssClient :=
  ⟨fun _ => .ok ⟨fun _ => .error (.ossServiceError "AccessDenied")⟩⟩

/-- The base64url text of 32 zero bytes: a well-formed `arid`. -/
def aridZero : String := "AAAAAAAAAAAAAAAAAAAAAAAAAAAAAAAAAAAAAAAAAAA"

/-- The chunk loader in the words of the claims, for comparison with
`Store.LoadChunk`: the chunk decoded from the value stored under the start
offset, and `ErrNotExist` when nothing is stored there. -/
def loadStoredChunk (J : Json GetChunk) (s : Store) (chunkStartOffset : Nat) :
    Run (Option GetChunk × Option Error) :=
  match s.BoltDb.ChunkBucket.Get (itob chunkStartOffset) with
  | none => .ret (none, some .ErrNotExist)
  | some val =>
    match J.decode val with
    | .ok chunk => .ret (some chunk, none)
    | .error err => .ret (none, some err)

/-- A transaction with the id of `txOne` and another owner. -/
def txOther : Transaction := { txOne with Owner := "other", Data := "Ag" }

/-- A paid order with the given id that waits for the chain and has `sort` set. -/
def paidOrder (id : Nat) : Order :=
  ⟨id, "item", "signer", "owner", 1, "AR", 12, "1", 0, SuccPayment, "hash", WaitOnChain, 0, true, ""⟩

/-- An expired order with the given id. -/
def expiredOrder (id : Nat) : Order :=
  { paidOrder id with PaymentStatus := ExpiredPayment, PaymentId := "", OnChainStatus := FailedOnChain }

/-- An unpaid order with the given id. -/
def unpaidOrder (id : Nat) : Order :=
  { paidOrder id with PaymentStatus := UnPayment, PaymentId := "" }

/-- A decoder that rejects every byte string. -/
def rejectItem : Bytes → Except Error BundleItem := fun _ => .error (.other "decode")

/-- A decoder that accepts every byte string as the data of an empty item. -/
def acceptItem : Bytes → Except Error BundleItem := fun _ => .ok ⟨"", "", "", "", "", [], ""⟩

/-- A processing step that accepts every item with an unpaid order. -/
def acceptOrder : BundleItem → String → Except Error Order := fun _ _ => .ok (unpaidOrder 1)

/-- A chunk loader under which every start offset holds a chunk of one byte. -/
def loadOneByteChunk : Nat → Run (Option GetChunk × Option Error) :=
  fun _ => .ret (some chunkOneByte, none)

/-- A chunk loader under which every start offset holds a chunk of no bytes. -/
def loadEmptyChunk : Nat → Run (Option GetChunk × Option Error) :=
  fun _ => .ret (some { chunkOneByte with Chunk := "" }, none)

/-- The number of chunk loads among the store reads. -/
def chunkLoads (reads : List Access) : Nat :=
  (reads.filter (fun a => match a with
    | .chunk _ => true
    | .txDataEndOffSet _ _ => false)).length

/-- Every value stored in the bucket is a byte string: its elements are below 256. -/
def Bucket.isBytes (b : Bucket) : Bool :=
  b.all (fun p => p.2.all (fun x => decide (x < 256)))

/-- A chunk loader under which every start offset holds a chunk of the three
bytes 1, 2, 3. -/
def loadThreeByteChunk : Nat → Run (Option GetChunk × Option Error) :=
  fun _ => .ret (some { chunkOneByte with Chunk := "AQID" }, none)

/-- An end offset read that returns the largest 64-bit offset. -/
def loadEndMax : String → String → Run (Nat × Option Error) :=
  fun _ _ => .ret (2 ^ 64 - 1, none)

/-- An end offset read that returns the end offset 3. -/
def loadEndThree : String → String → Run (Nat × Option Error) :=
  fun _ _ => .ret (3, none)

/-! ## Lemmas on the library models -/

set_option maxRecDepth 100000


theorem Bucket.Get_set_same (b : Bucket) (key value : Bytes) :
    Bucket.Get (Bucket.set key value b) key = some value := by
  induction b with
  | nil => simp [Bucket.set, Bucket.Get]
  | cons p rest ih =>
    obtain ⟨k, v⟩ := p
    by_cases h : k = key
    · simp [Bucket.set, Bucket.Get, h]
    · simp [Bucket.set, Bucket.Get, h, ih]

theorem Bucket.Get_set_other (b : Bucket) (key value other : Bytes) (h : key ≠ other) :
    Bucket.Get (Bucket.set key value b) other = Bucket.Get b other := by
  induction b with
  | nil => simp [Bucket.set, Bucket.Get, h]
  | cons p rest ih =>
    obtain ⟨k, v⟩ := p
    by_cases hk : k = key
    · subst hk
      simp [Bucket.set, Bucket.Get, h]
    · by_cases ho : k = other
      · subst ho
        simp [Bucket.set, Bucket.Get, hk]
      · simp [Bucket.set, Bucket.Get, hk, ho, ih]

theorem sha256.length_Sum256 (msg : Bytes) : (sha256.Sum256 msg).length = 32 := by
  simp [sha256.Sum256, sha256.be32, List.flatMap]

theorem length_generateOffSetKey (dataRoot dataSize : String) :
    (generateOffSetKey dataRoot dataSize).length = 32 :=
  sha256.length_Sum256 _

theorem length_itob (v : Nat) : (itob v).length = 64 := by
  simp [itob, putUint64]

theorem btoi_itob (v : Nat) (h : v < 2 ^ 64) : btoi (itob v) = .ret v := by
  simp only [itob, putUint64, List.cons_append, List.nil_append, btoi]
  congr 1
  omega

/-- In every state `LoadChunk` returns a nil chunk, and its error is the one
`View` returns: nil on an open database. -/
theorem Store.LoadChunk_eq (J : Json GetChunk) (s : Store) (o : Nat) :
    s.LoadChunk J o =
      .ret (none, if s.BoltDb.opened then none else some .ErrDatabaseNotOpen) := by
  unfold Store.LoadChunk DB.View
  cases hopen : s.BoltDb.opened
  · simp
  · cases hget : s.BoltDb.ChunkBucket.Get (itob o) <;> simp [hget, Json.Unmarshal]

/-- In every state `LoadTxMeta` returns a nil transaction together with an error. -/
theorem Store.LoadTxMeta_eq (J : Json Transaction) (s : Store) (arId : String) :
    s.LoadTxMeta J arId =
      .ret (none,
        if s.BoltDb.opened then
          (if (s.BoltDb.TxMetaBucket.Get (stringBytes arId)).isSome then some .jsonError
           else some .ErrNotExist)
        else some .ErrDatabaseNotOpen) := by
  unfold Store.LoadTxMeta DB.View
  cases hopen : s.BoltDb.opened
  · simp
  · cases hget : s.BoltDb.TxMetaBucket.Get (stringBytes arId) <;> simp [hget, Json.Unmarshal]

theorem base64Values_error (cs : List Char) (e : Error) (h : base64Values cs = .error e) :
    e = .corruptInput := by
  induction cs with
  | nil => simp [base64Values] at h
  | cons c cs ih =>
    unfold base64Values at h
    cases hv : base64urlValue c with
    | none =>
      rw [hv] at h
      injection h with h
      exact h.symm
    | some v =>
      rw [hv] at h
      cases hr : base64Values cs with
      | ok vs => rw [hr] at h; simp at h
      | error e1 =>
        rw [hr] at h
        injection h with h
        subst h
        exact ih hr

theorem base64Quanta_error (vs : List Nat) (e : Error) (h : base64Quanta vs = .error e) :
    e = .corruptInput := by
  induction vs using base64Quanta.induct with
  | case1 a b c d rest r hr _ => simp [base64Quanta, hr] at h
  | case2 a b c d rest e1 hr ih =>
    simp only [base64Quanta, hr] at h
    injection h with h
    subst h
    exact ih hr
  | case3 a b c => simp [base64Quanta] at h
  | case4 a b => simp [base64Quanta] at h
  | case5 a =>
    simp only [base64Quanta] at h
    injection h with h
    exact h.symm
  | case6 => simp [base64Quanta] at h

theorem Base64Decode_error (data : String) (e : Error) (h : Base64Decode data = .error e) :
    e = .corruptInput := by
  unfold Base64Decode at h
  split at h
  · exact base64Quanta_error _ _ h
  · next e1 he =>
    injection h with h
    subst h
    exact base64Values_error _ _ he

/-- The loop of `getData` returns `ErrDataTooBig` only if the chunk loader does. -/
theorem getDataLoop_ne_ErrDataTooBig (LoadChunk : Nat → Run (Option GetChunk × Option Error))
    (hload : ∀ o chunk, LoadChunk o ≠ .ret (chunk, some .ErrDataTooBig))
    (startOffset txDataEndOffset : Nat) (fuel : Nat) :
    ∀ (i : Nat) (data : Bytes) (reads r : List Access),
      getDataLoop LoadChunk startOffset txDataEndOffset fuel i data reads
        ≠ some (.ret (.error .ErrDataTooBig), r) := by
  induction fuel with
  | zero => intro i data reads r; simp [getDataLoop]
  | succ fuel ih =>
    intro i data reads r
    unfold getDataLoop
    split
    · simp only
      split
      · simp
      · next chunk err hl =>
        intro h
        simp only [Option.some.injEq, Prod.mk.injEq, Run.ret.injEq, Except.error.injEq] at h
        rw [h.1] at hl
        exact hload _ _ hl
      · simp
      · split
        · next err hd =>
          intro h
          simp only [Option.some.injEq, Prod.mk.injEq, Run.ret.injEq, Except.error.injEq] at h
          rw [h.1] at hd
          have := Base64Decode_error _ _ hd
          simp at this
        · exact ih _ _ _ _
    · simp

theorem parseUintLoop_error (cs : List Char) (n : Nat) (e : Error)
    (h : parseUintLoop cs n = .error e) : e = .numSyntax ∨ e = .numRange := by
  induction cs generalizing n with
  | nil => simp [parseUintLoop] at h
  | cons c cs ih =>
    unfold parseUintLoop at h
    split at h
    · split at h
      · injection h with h; exact Or.inr h.symm
      · split at h
        · injection h with h; exact Or.inr h.symm
        · exact ih _ h
    · injection h with h; exact Or.inl h.symm

/-- The errors of `getData` on the store are never `ErrDataTooBig`. -/
theorem getData_ne_ErrDataTooBig (J : Json GetChunk) (fuel : Nat) (dataRoot dataSize : String)
    (db : Store) (r : List Access) :
    getData J fuel dataRoot dataSize db ≠ some (.ret (.error .ErrDataTooBig), r) := by
  unfold getData getDataWith
  split
  · next err hp =>
    intro h
    simp only [Option.some.injEq, Prod.mk.injEq, Run.ret.injEq, Except.error.injEq] at h
    rw [h.1] at hp
    unfold ParseUint at hp
    split at hp
    · simp at hp
    · rcases parseUintLoop_error _ _ _ hp with h1 | h1 <;> simp at h1
  · split
    · simp
    · split
      · simp
      · split
        · simp
        · next x err hl =>
          intro h
          simp only [Option.some.injEq, Prod.mk.injEq, Run.ret.injEq, Except.error.injEq] at h
          rw [h.1] at hl
          unfold Store.LoadTxDataEndOffSet DB.View at hl
          split at hl
          · simp only at hl
            split at hl
            · simp at hl
            · split at hl <;> simp at hl
          · simp at hl
        · apply getDataLoop_ne_ErrDataTooBig
          intro o chunk
          rw [Store.LoadChunk_eq]
          cases db.BoltDb.opened <;> simp

/-! ## Theorems on the store -/

/-- C3, the code at the failing input: on the empty store `SaveChunk(1, chunkOneByte)`
succeeds and the marshalled chunk is stored under `itob(1)`, yet `LoadChunk(1)`
returns a nil chunk (with a nil error); and in no store state, for no codec, does
`LoadChunk` return a chunk, because the destination of `json.Unmarshal` is the
nil named result. -/
theorem LoadChunk_after_SaveChunk_is_nil :
    (Store.empty.SaveChunk chunkJson 1 chunkOneByte).2 = none
    ∧ (chunkJson.Marshal chunkOneByte).toOption =
        (Store.empty.SaveChunk chunkJson 1 chunkOneByte).1.BoltDb.ChunkBucket.Get (itob 1)
    ∧ (Store.empty.SaveChunk chunkJson 1 chunkOneByte).1.LoadChunk chunkJson 1 = .ret (none, none)
    ∧ ∀ (J : Json GetChunk) (s : Store) (o : Nat), ∃ err, s.LoadChunk J o = .ret (none, err) := by
  refine ⟨rfl, rfl, rfl, ?_⟩
  intro J s o
  exact ⟨_, Store.LoadChunk_eq J s o⟩

/-- C4, the code at the failing input: on the empty store `SaveTxMeta(txOne)`
succeeds and a record is stored under the id, yet `LoadTxMeta("id1")` returns
a nil transaction and an `encoding/json` error; and in no store state, for no
codec, does `LoadTxMeta` return a transaction or a nil error, because the
destination of `json.Unmarshal` is the nil named result. -/
theorem LoadTxMeta_after_SaveTxMeta_fails :
    (Store.empty.SaveTxMeta txJson txOne).2 = none
    ∧ (txJson.Marshal { txOne with Data := "" }).toOption =
        (Store.empty.SaveTxMeta txJson txOne).1.BoltDb.TxMetaBucket.Get (stringBytes txOne.ID)
    ∧ (Store.empty.SaveTxMeta txJson txOne).1.LoadTxMeta txJson txOne.ID
        = .ret (none, some .jsonError)
    ∧ ∀ (J : Json Transaction) (s : Store) (arId : String),
        ∃ err, s.LoadTxMeta J arId = .ret (none, some err) := by
  refine ⟨rfl, rfl, rfl, ?_⟩
  intro J s arId
  rw [Store.LoadTxMeta_eq]
  cases s.BoltDb.opened
  · exact ⟨_, rfl⟩
  · cases (s.BoltDb.TxMetaBucket.Get (stringBytes arId)).isSome <;> exact ⟨_, rfl⟩

/-- C7, the code at the failing input: no chunk is stored under offset 0 of
the empty store and `LoadChunk(0)` returns a nil error, not `ErrNotExist`; and
in no store state, for no codec, does `LoadChunk` return `ErrNotExist`: the
closure assigns it to `err` and returns nil, and `err = s.BoltDb.View(...)`
then overwrites it with the value `View` returns. -/
theorem LoadChunk_absent_returns_nil_error :
    Store.empty.BoltDb.ChunkBucket.Get (itob 0) = none
    ∧ Store.empty.LoadChunk chunkJson 0 = .ret (none, none)
    ∧ ∀ (J : Json GetChunk) (s : Store) (o : Nat) (chunk : Option GetChunk),
        ¬ (s.LoadChunk J o = .ret (chunk, some .ErrNotExist)) := by
  refine ⟨rfl, rfl, ?_⟩
  intro J s o chunk h
  rw [Store.LoadChunk_eq] at h
  cases hopen : s.BoltDb.opened <;> simp [hopen] at h

/-- C5, counterexample: on the empty store `SaveChunk` of a chunk with start
offset 1 and decoded length 1 succeeds, and afterwards `LoadAllDataEndOffset`
returns 0, not `1 + 1 - 1`, and no tx end offset is stored for the chunk's
(data_root, data_size). -/
theorem SaveChunk_offsets_counterexample :
    (Store.empty.SaveChunk chunkJson 1 chunkOneByte).2 = none
    ∧ Base64Decode chunkOneByte.Chunk = .ok [1]
    ∧ (Store.empty.SaveChunk chunkJson 1 chunkOneByte).1.LoadAllDataEndOffset = .ret 0
    ∧ (Store.empty.SaveChunk chunkJson 1 chunkOneByte).1.LoadAllDataEndOffset ≠ .ret (1 + 1 - 1)
    ∧ (Store.empty.SaveChunk chunkJson 1 chunkOneByte).1.LoadTxDataEndOffSet
        chunkOneByte.DataRoot chunkOneByte.DataSize = .ret (0, some .ErrNotExist) := by
  refine ⟨rfl, rfl, rfl, ?_, rfl⟩
  intro h
  have h0 : (Store.empty.SaveChunk chunkJson 1 chunkOneByte).1.LoadAllDataEndOffset = .ret 0 := rfl
  rw [h0] at h
  exact absurd h (by decide)

/-- C5, amended: a successful `SaveChunk(o, c)` stores the marshalled chunk
under `itob(o)` in the chunk bucket; whether it succeeds or fails it leaves the tx-end-offset bucket, the tx-meta bucket and
the constants bucket (hence `LoadAllDataEndOffset` and every
`LoadTxDataEndOffSet`) as they were; and when it fails the whole store,
chunk bucket included, is unchanged. -/
theorem SaveChunk_writes_only_the_chunk (J : Json GetChunk) (s : Store) (o : Nat) (c : GetChunk) :
    ((s.SaveChunk J o c).2 = none →
        (J.Marshal c).toOption = (s.SaveChunk J o c).1.BoltDb.ChunkBucket.Get (itob o)
        ∧ (J.Marshal c).toOption ≠ none)
    ∧ (s.SaveChunk J o c).1.BoltDb.TxDataEndOffSetBucket = s.BoltDb.TxDataEndOffSetBucket
    ∧ (s.SaveChunk J o c).1.BoltDb.ConstantsBucket = s.BoltDb.ConstantsBucket
    ∧ (s.SaveChunk J o c).1.BoltDb.TxMetaBucket = s.BoltDb.TxMetaBucket
    ∧ (s.SaveChunk J o c).1.LoadAllDataEndOffset = s.LoadAllDataEndOffset
    ∧ (∀ dataRoot dataSize, (s.SaveChunk J o c).1.LoadTxDataEndOffSet dataRoot dataSize
        = s.LoadTxDataEndOffSet dataRoot dataSize)
    ∧ ((s.SaveChunk J o c).2 ≠ none → (s.SaveChunk J o c).1 = s) := by
  unfold Store.SaveChunk
  cases hm : J.Marshal c with
  | error e => simp [Except.toOption]
  | ok js =>
    simp only [DB.Update, Bucket.Put]
    cases hopen : s.BoltDb.opened
    · simp [Except.toOption]
    · have hlen : (itob o).length = 64 := length_itob o
      by_cases hv : js.length > MaxValueSize
      · simp [hlen, hv, MaxKeySize, Except.toOption]
      · simp [hlen, hv, MaxKeySize, Except.toOption, Bucket.Get_set_same,
          Store.LoadAllDataEndOffset, Store.LoadTxDataEndOffSet, DB.View, hopen]

/-- C5, witness: the success part at the empty store and the failure part at
the closed store. -/
theorem SaveChunk_writes_only_the_chunk_witness :
    ((Store.empty.SaveChunk chunkJson 1 chunkOneByte).2 = none
      ∧ (chunkJson.Marshal chunkOneByte).toOption =
          (Store.empty.SaveChunk chunkJson 1 chunkOneByte).1.BoltDb.ChunkBucket.Get (itob 1))
    ∧ ((Store.empty.Close.1.SaveChunk chunkJson 1 chunkOneByte).2 ≠ none
      ∧ (Store.empty.Close.1.SaveChunk chunkJson 1 chunkOneByte).1 = Store.empty.Close.1) :=
  ⟨⟨rfl, ((SaveChunk_writes_only_the_chunk chunkJson Store.empty 1 chunkOneByte).1 rfl).1⟩,
   ⟨by decide,
    (SaveChunk_writes_only_the_chunk chunkJson Store.empty.Close.1 1 chunkOneByte).2.2.2.2.2.2
      (by decide)⟩⟩

/-- C6, counterexample: with end offset 5 stored for ("root", "1"), saving the
end offset 3 succeeds and `LoadTxDataEndOffSet` then returns 3, not
`max 5 3`: the stored end offset has decreased. -/
theorem SaveTxDataEndOffSet_max_counterexample :
    storeEndFive.LoadTxDataEndOffSet "root" "1" = .ret (5, none)
    ∧ (storeEndFive.SaveTxDataEndOffSet "root" "1" 3).2 = none
    ∧ (storeEndFive.SaveTxDataEndOffSet "root" "1" 3).1.LoadTxDataEndOffSet "root" "1"
        = .ret (3, none)
    ∧ (storeEndFive.SaveTxDataEndOffSet "root" "1" 3).1.LoadTxDataEndOffSet "root" "1"
        ≠ .ret (max 5 3, none) := by
  refine ⟨rfl, rfl, rfl, ?_⟩
  intro h
  have h3 : (storeEndFive.SaveTxDataEndOffSet "root" "1" 3).1.LoadTxDataEndOffSet "root" "1"
      = .ret (3, none) := rfl
  rw [h3] at h
  exact absurd h (by decide)

/-- C6, amended: writing a tx end offset is insert-or-overwrite. For every
store state, every (data_root, data_size) and every 64-bit v, after a
successful `SaveTxDataEndOffSet(data_root, data_size, v)` the call
`LoadTxDataEndOffSet(data_root, data_size)` returns v with a nil error,
whatever was stored before; and the save succeeds on every open store. -/
theorem SaveTxDataEndOffSet_overwrites (s : Store) (dataRoot dataSize : String) (v : Nat)
    (hv : v < 2 ^ 64) :
    ((s.SaveTxDataEndOffSet dataRoot dataSize v).2 = none →
      (s.SaveTxDataEndOffSet dataRoot dataSize v).1.LoadTxDataEndOffSet dataRoot dataSize
        = .ret (v, none))
    ∧ (s.BoltDb.opened = true → (s.SaveTxDataEndOffSet dataRoot dataSize v).2 = none) := by
  have hk : (generateOffSetKey dataRoot dataSize).length = 32 := length_generateOffSetKey _ _
  have hi : (itob v).length = 64 := length_itob v
  unfold Store.SaveTxDataEndOffSet Store.LoadTxDataEndOffSet DB.Update DB.View Bucket.Put
  cases hopen : s.BoltDb.opened
  · simp
  · simp [hk, hi, MaxKeySize, MaxValueSize, Bucket.Get_set_same, btoi_itob v hv, hopen]

/-- C6, witness: an insert into the empty store and an overwrite of the stored
end offset 5 by 3. -/
theorem SaveTxDataEndOffSet_overwrites_witness :
    (Store.empty.SaveTxDataEndOffSet "root" "1" 7).1.LoadTxDataEndOffSet "root" "1"
        = .ret (7, none)
    ∧ (storeEndFive.SaveTxDataEndOffSet "root" "1" 3).1.LoadTxDataEndOffSet "root" "1"
        = .ret (3, none)
    ∧ (storeEndFive.SaveTxDataEndOffSet "root" "1" 3).2 = none :=
  ⟨(SaveTxDataEndOffSet_overwrites Store.empty "root" "1" 7 (by norm_num)).1 rfl,
   (SaveTxDataEndOffSet_overwrites storeEndFive "root" "1" 3 (by norm_num)).1 rfl,
   (SaveTxDataEndOffSet_overwrites storeEndFive "root" "1" 3 (by norm_num)).2 rfl⟩

/-! ## Theorems on data retrieval -/

/-- C1, the code at the failing inputs. For data size 1, with end offset 1
stored for ("root", "1") and a chunk stored at start offset 1 whose decoded
bytes are the single byte 1, `getData` reads the end offset, loads no chunk
and returns no bytes: the loop condition `uint64(i)+startOffset <
txDataEndOffset` is false at the start offset of a final one-byte chunk. For
data size 3, with one-byte chunks stored at offsets 1, 2 and 3, `getData`
loads offset 1 and panics, because `LoadChunk` returns a nil chunk and a nil
error; and when the loop of `getData` is run with a loader that does return
the stored chunks, it loads offsets 1 and 2 only and returns the two bytes
1, 2 of the three. -/
theorem getData_one_byte_chunks :
    storeOneByte.LoadTxDataEndOffSet "root" "1" = .ret (1, none)
    ∧ (chunkJson.Marshal chunkOneByte).toOption = storeOneByte.BoltDb.ChunkBucket.Get (itob 1)
    ∧ Base64Decode chunkOneByte.Chunk = .ok [1]
    ∧ (∀ fuel, getData chunkJson (fuel + 1) "root" "1" storeOneByte
        = some (.ret (.ok []), [Access.txDataEndOffSet "root" "1"]))
    ∧ storeThreeBytes.LoadTxDataEndOffSet "root" "3" = .ret (3, none)
    ∧ (chunkJson.Marshal (chunkOfThree "0" "AQ")).toOption
        = storeThreeBytes.BoltDb.ChunkBucket.Get (itob 1)
    ∧ (chunkJson.Marshal (chunkOfThree "1" "Ag")).toOption
        = storeThreeBytes.BoltDb.ChunkBucket.Get (itob 2)
    ∧ (chunkJson.Marshal (chunkOfThree "2" "Aw")).toOption
        = storeThreeBytes.BoltDb.ChunkBucket.Get (itob 3)
    ∧ (∀ fuel, getData chunkJson (fuel + 1) "root" "3" storeThreeBytes
        = some (.panic, [Access.txDataEndOffSet "root" "3", Access.chunk 1]))
    ∧ loadStoredChunk chunkJson storeThreeBytes 3 = .ret (some (chunkOfThree "2" "Aw"), none)
    ∧ Base64Decode (chunkOfThree "2" "Aw").Chunk = .ok [3]
    ∧ (∀ fuel, getDataLoop (loadStoredChunk chunkJson storeThreeBytes) 1 3 (fuel + 3) 0 [] []
        = some (.ret (.ok [1, 2]), [Access.chunk 1, Access.chunk 2])) :=
  ⟨rfl, rfl, rfl, fun _ => rfl, rfl, rfl, rfl, rfl, fun _ => rfl, rfl, rfl, fun _ => rfl⟩

/-- C2: for every tx meta whose data size parses as the unsigned 64-bit
decimal s, `txDataByMeta` returns `ErrDataTooBig` if and only if
`s > 6553600`; when it does, it has made no read of the store; at
`s = 6553600` it does not return `ErrDataTooBig`. This holds for every codec,
store state and amount of fuel. -/
theorem txDataByMeta_ErrDataTooBig_iff (J : Json GetChunk) (fuel : Nat) (txMeta : Transaction)
    (db : Store) (s : Nat) (hs : ParseUint txMeta.DataSize = .ok s) :
    ((∃ reads, txDataByMeta J fuel txMeta db = some (.ret (.error .ErrDataTooBig), reads))
        ↔ 6553600 < s)
    ∧ (6553600 < s → txDataByMeta J fuel txMeta db = some (.ret (.error .ErrDataTooBig), []))
    ∧ (s = 6553600 →
        ∀ reads, txDataByMeta J fuel txMeta db ≠ some (.ret (.error .ErrDataTooBig), reads)) := by
  have hbig : 6553600 < s → txDataByMeta J fuel txMeta db
      = some (.ret (.error .ErrDataTooBig), []) := by
    intro h
    unfold txDataByMeta
    rw [hs]
    simp only
    rw [if_pos (by omega)]
  have hsmall : ¬ 6553600 < s →
      ∀ reads, txDataByMeta J fuel txMeta db ≠ some (.ret (.error .ErrDataTooBig), reads) := by
    intro h reads
    unfold txDataByMeta
    rw [hs]
    simp only
    rw [if_neg (by omega)]
    exact getData_ne_ErrDataTooBig J fuel _ _ db reads
  refine ⟨⟨?_, fun h => ⟨[], hbig h⟩⟩, hbig, fun h => hsmall (by omega)⟩
  rintro ⟨reads, hr⟩
  by_contra hn
  exact hsmall hn reads hr

/-- C2, witness: a data size of 6553601 is refused without a read of the
store; the data size 6553600 is not refused. -/
theorem txDataByMeta_ErrDataTooBig_iff_witness :
    ParseUint txAboveLimit.DataSize = .ok 6553601
    ∧ txDataByMeta chunkJson 0 txAboveLimit Store.empty
        = some (.ret (.error .ErrDataTooBig), [])
    ∧ ParseUint txAtLimit.DataSize = .ok 6553600
    ∧ ∀ reads, txDataByMeta chunkJson 1 txAtLimit Store.empty
        ≠ some (.ret (.error .ErrDataTooBig), reads) :=
  ⟨rfl,
   (txDataByMeta_ErrDataTooBig_iff chunkJson 0 txAboveLimit Store.empty 6553601 rfl).2.1
     (by norm_num),
   rfl,
   (txDataByMeta_ErrDataTooBig_iff chunkJson 1 txAtLimit Store.empty 6553600 rfl).2.2 rfl⟩

/-! ## Theorems on the OSS backend -/

/-- C8, the code at the failing input: for the service error with code
`AccessDenied`, `handleOSSErr` returns nil, and `AliyunDB.Get` returns a nil
error although `GetObject` failed. In general `handleOSSErr` maps a service
error to `ErrNotExist` when its code is `NoSuchKey` and to nil otherwise; only
errors of other types are returned unchanged. -/
theorem handleOSSErr_drops_service_errors :
    handleOSSErr (.ossServiceError "AccessDenied") = none
    ∧ (∀ (getS3Bucket : String → String → String) (bucket key : String),
        AliyunDB.Get getS3Bucket ⟨"arseed", deniedClient⟩ bucket key = ([], none))
    ∧ (∀ code, handleOSSErr (.ossServiceError code)
        = if code = "NoSuchKey" then some .ErrNotExist else none)
    ∧ handleOSSErr (.other "timeout") = some (.other "timeout") := by
  refine ⟨rfl, fun _ _ _ => rfl, fun code => ?_, rfl⟩
  simp [handleOSSErr, ossErrorNoSuchKey]

/-! ## Theorems on the price -/

theorem wrapInt64_of_range (x : Int) (h : -2 ^ 63 ≤ x ∧ x < 2 ^ 63) : wrapInt64 x = x := by
  unfold wrapInt64
  omega

theorem chunkNum_of_pos (dataSize : Int) (h : 0 < dataSize) :
    chunkNum dataSize = (dataSize - 1) / 262144 + 1 := by
  unfold chunkNum
  rw [if_neg (by omega), Int.ceil_eq_iff]
  have h1 : 262144 * ((dataSize - 1) / 262144) ≤ dataSize - 1 := by omega
  have h2 : dataSize ≤ 262144 * ((dataSize - 1) / 262144) + 262144 := by omega
  have h1q : (262144 : ℚ) * (((dataSize - 1) / 262144 : Int) : ℚ) ≤ (dataSize : ℚ) - 1 := by
    exact_mod_cast h1
  have h2q : (dataSize : ℚ) ≤ 262144 * (((dataSize - 1) / 262144 : Int) : ℚ) + 262144 := by
    exact_mod_cast h2
  constructor
  · rw [lt_div_iff₀ (by norm_num)]
    push_cast
    linarith
  · rw [div_le_iff₀ (by norm_num)]
    push_cast
    linarith

/-- C9: for every fee and every `int64` data size, when neither the product
nor the sum overflows, `calculatePrice` returns the decimal text of
`Base + chunkNum * PerChunk`, where `chunkNum` is 0 for a size that is not
positive and the size divided by 262144 rounded up otherwise. -/
theorem calculatePrice_eq (fee : ArFee) (dataSize : Int)
    (hsize : -2 ^ 63 ≤ dataSize ∧ dataSize < 2 ^ 63)
    (hmul : -2 ^ 63 ≤ chunkNum dataSize * fee.PerChunk ∧ chunkNum dataSize * fee.PerChunk < 2 ^ 63)
    (hadd : -2 ^ 63 ≤ fee.Base + chunkNum dataSize * fee.PerChunk
      ∧ fee.Base + chunkNum dataSize * fee.PerChunk < 2 ^ 63) :
    calculatePrice fee dataSize = sprintfD (fee.Base + chunkNum dataSize * fee.PerChunk) := by
  unfold calculatePrice
  by_cases hpos : dataSize > 0
  · have hc := chunkNum_of_pos dataSize hpos
    have hd : wrapInt64 (dataSize - 1) = dataSize - 1 := wrapInt64_of_range _ (by omega)
    have ht : (dataSize - 1).tdiv MAX_CHUNK_SIZE = (dataSize - 1) / 262144 := by
      rw [Int.tdiv_eq_ediv (by omega) (by norm_num [MAX_CHUNK_SIZE])]
      norm_num [MAX_CHUNK_SIZE]
    have hq : wrapInt64 ((dataSize - 1) / 262144) = (dataSize - 1) / 262144 :=
      wrapInt64_of_range _ (by omega)
    have hq1 : wrapInt64 ((dataSize - 1) / 262144 + 1) = (dataSize - 1) / 262144 + 1 :=
      wrapInt64_of_range _ (by omega)
    simp only [if_pos hpos, hd, ht, hq, hq1]
    rw [← hc, wrapInt64_of_range _ hmul, wrapInt64_of_range _ hadd]
  · have hc : chunkNum dataSize = 0 := by
      unfold chunkNum
      rw [if_pos (by omega)]
    simp only [if_neg hpos]
    rw [hc] at hmul hadd ⊢
    rw [wrapInt64_of_range _ hmul, wrapInt64_of_range _ hadd]

/-- C9, witness: 262144 bytes are one chunk and 262145 bytes are two, and with
base fee 100 and fee 7 per chunk the price of 262145 bytes is "114". -/
theorem calculatePrice_eq_witness :
    chunkNum 262144 = 1 ∧ chunkNum 262145 = 2 ∧ chunkNum 0 = 0
    ∧ calculatePrice ⟨100, 7⟩ 262145 = sprintfD (100 + chunkNum 262145 * 7)
    ∧ calculatePrice ⟨100, 7⟩ 262145 = "114" :=
  have h2 : chunkNum 262145 = 2 := by rw [chunkNum_of_pos _ (by norm_num)]; norm_num
  ⟨by rw [chunkNum_of_pos _ (by norm_num)]; norm_num, h2, by simp [chunkNum],
   calculatePrice_eq ⟨100, 7⟩ 262145 (by norm_num) (by rw [h2]; norm_num) (by rw [h2]; norm_num),
   by decide⟩

/-! ## Theorems on the task handlers -/

/-- C10, the code at the failing input: the task type "cast" is none of the
three task type names, but it is a substring of their concatenation
"syncbroadcastbroadcast-meta", which is what the handlers test. With a
well-formed arid, `postTask` answers 200 and registers the task "cast-..." in
the pending pool, the task table and the dispatch queue; `killTask` then
answers 200 and closes that task; and in no state does `killTask` or
`getTask` answer 400 for this task type. -/
theorem task_handlers_accept_substring_of_names :
    "cast" ≠ TaskTypeBroadcastMeta ∧ "cast" ≠ TaskTypeBroadcast ∧ "cast" ≠ TaskTypeSync
    ∧ taskTypeNames = "syncbroadcastbroadcast-meta"
    ∧ (Arseeding.empty.postTask aridZero "cast").2 = ⟨200, .text "ok"⟩
    ∧ (Arseeding.empty.postTask aridZero "cast").1.store.TaskIdPendingPool
        = [assembleTaskId aridZero "cast"]
    ∧ (Arseeding.empty.postTask aridZero "cast").1.taskMg.taskCh = [assembleTaskId aridZero "cast"]
    ∧ ((Arseeding.empty.postTask aridZero "cast").1.taskMg.GetTask aridZero "cast").isSome = true
    ∧ ((Arseeding.empty.postTask aridZero "cast").1.killTask aridZero "cast").2
        = ⟨200, .text "ok"⟩
    ∧ (((Arseeding.empty.postTask aridZero "cast").1.killTask aridZero "cast").1.taskMg.GetTask
        aridZero "cast") = none
    ∧ (∀ s : Arseeding, (s.killTask aridZero "cast").2.status ≠ 400)
    ∧ (∀ s : Arseeding, (s.getTask aridZero "cast").status ≠ 400) := by
  have hc : stringsContains taskTypeNames "cast" = true := by decide
  have hb : Base64Decode aridZero = .ok (List.replicate 32 0) := rfl
  refine ⟨by decide, by decide, by decide, by decide, by decide, by decide, by decide, by decide,
    by decide, by decide, ?_, ?_⟩
  · intro s
    unfold Arseeding.killTask
    simp only [hc, hb]
    cases hk : s.CloseTask aridZero "cast" with
    | mk s1 e => cases e <;> simp
  · intro s
    unfold Arseeding.getTask
    simp only [hc, hb]
    cases hg : s.taskMg.GetTask aridZero "cast" with
    | some tk => simp
    | none =>
      cases hl : s.store.LoadTask (assembleTaskId aridZero "cast") with
      | mk tk e => cases e <;> cases tk <;> simp

/-- C11: for every arid that does not base64url-decode to exactly 32 bytes,
and every task type and state, `postTask`, `killTask` and `getTask` answer
400; `postTask` and `killTask` return the state (task table, pending pool,
dispatch queue, task records) unchanged, and `getTask` only reads it. -/
theorem task_handlers_reject_malformed_arid (s : Arseeding) (arid tkType : String)
    (h : ∀ txHash, Base64Decode arid = .ok txHash → txHash.length ≠ 32) :
    (s.postTask arid tkType).2.status = 400
    ∧ (s.postTask arid tkType).1 = s
    ∧ (s.killTask arid tkType).2.status = 400
    ∧ (s.killTask arid tkType).1 = s
    ∧ (s.getTask arid tkType).status = 400 := by
  unfold Arseeding.postTask Arseeding.killTask Arseeding.getTask
  cases hb : Base64Decode arid with
  | error e =>
    cases stringsContains taskTypeNames tkType <;> simp
  | ok txHash =>
    have hl := h txHash hb
    cases stringsContains taskTypeNames tkType <;> simp [hl]

/-- C11, witness: "abc" decodes to two bytes and "A" does not decode. -/
theorem task_handlers_reject_malformed_arid_witness :
    Base64Decode "abc" = .ok [105, 183]
    ∧ (Arseeding.empty.postTask "abc" "sync").2.status = 400
    ∧ (Arseeding.empty.killTask "abc" "sync").1 = Arseeding.empty
    ∧ Base64Decode "A" = .error .corruptInput
    ∧ (Arseeding.empty.getTask "A" "broadcast").status = 400 :=
  have h1 : ∀ txHash, Base64Decode "abc" = .ok txHash → txHash.length ≠ 32 := by
    intro txHash hd
    have h0 : Base64Decode "abc" = .ok [105, 183] := rfl
    rw [h0] at hd
    injection hd with hd
    subst hd
    decide
  have h2 : ∀ txHash, Base64Decode "A" = .ok txHash → txHash.length ≠ 32 := by
    intro txHash hd
    have h0 : Base64Decode "A" = .error .corruptInput := rfl
    rw [h0] at hd
    cases hd
  ⟨rfl, (task_handlers_reject_malformed_arid Arseeding.empty "abc" "sync" h1).1,
   (task_handlers_reject_malformed_arid Arseeding.empty "abc" "sync" h1).2.2.2.1, rfl,
   (task_handlers_reject_malformed_arid Arseeding.empty "A" "broadcast" h2).2.2.2.2⟩

theorem lookup_append_self_isSome (l : List (String × Task)) (k : String) (v : Task) :
    ((l ++ [(k, v)]).lookup k).isSome = true := by
  induction l with
  | nil => simp [List.lookup]
  | cons p rest ih =>
    obtain ⟨a, b⟩ := p
    simp only [List.cons_append, List.lookup]
    cases hk : k == a
    · simp only
      exact ih
    · simp

theorem lookup_filter_ne (l : List (String × Task)) (k : String) :
    (l.filter (fun p => p.1 ≠ k)).lookup k = none := by
  induction l with
  | nil => simp [List.lookup]
  | cons p rest ih =>
    obtain ⟨a, b⟩ := p
    by_cases hk : a = k
    · rw [List.filter_cons_of_neg (by simp [hk])]
      exact ih
    · have hk2 : (k == a) = false := by
        simp only [beq_eq_false_iff_ne, ne_eq]
        exact fun h => hk h.symm
      rw [List.filter_cons_of_pos (by simp [hk])]
      simp only [List.lookup, hk2]
      exact ih

/-- C16: `registerTask` returns exactly the error of the pending-pool write
for `assembleTaskId(arId, tkType)`, so it succeeds if and only if the write
succeeds. On success the pending pool contains the task id, the task table
holds a record for it and one dispatch token for it was appended to the
queue. On failure the queue and the store are unchanged and the task table
holds no record for the task id. -/
theorem registerTask_outcome (s : Arseeding) (arId tktype : String) :
    (s.registerTask arId tktype).2 = (s.store.PutTaskPendingPool (assembleTaskId arId tktype)).2
    ∧ ((s.registerTask arId tktype).2 = none ↔
        (s.store.PutTaskPendingPool (assembleTaskId arId tktype)).2 = none)
    ∧ ((s.registerTask arId tktype).2 = none →
        assembleTaskId arId tktype ∈ (s.registerTask arId tktype).1.store.TaskIdPendingPool
        ∧ ((s.registerTask arId tktype).1.taskMg.GetTask arId tktype).isSome = true
        ∧ (s.registerTask arId tktype).1.taskMg.taskCh
            = s.taskMg.taskCh ++ [assembleTaskId arId tktype])
    ∧ ((s.registerTask arId tktype).2 ≠ none →
        (s.registerTask arId tktype).1.taskMg.taskCh = s.taskMg.taskCh
        ∧ (s.registerTask arId tktype).1.taskMg.GetTask arId tktype = none
        ∧ (s.registerTask arId tktype).1.store = s.store) := by
  have hadd : ((s.taskMg.AddTask arId tktype).tasks.lookup (assembleTaskId arId tktype)).isSome
      = true := by
    unfold TaskManager.AddTask
    split
    · assumption
    · exact lookup_append_self_isSome _ _ _
  have hch : (s.taskMg.AddTask arId tktype).taskCh = s.taskMg.taskCh := by
    unfold TaskManager.AddTask
    split <;> rfl
  unfold Arseeding.registerTask TaskStore.PutTaskPendingPool
  cases hopen : s.store.opened
  · have hdel : (((s.taskMg.AddTask arId tktype).DelTask arId tktype).tasks.lookup
        (assembleTaskId arId tktype)) = none := by
      simp only [TaskManager.DelTask]
      exact lookup_filter_ne _ _
    have hdch : ((s.taskMg.AddTask arId tktype).DelTask arId tktype).taskCh = s.taskMg.taskCh := by
      simp [TaskManager.DelTask, hch]
    simp [hopen, TaskManager.GetTask, hdel, hdch]
  · by_cases hmem : assembleTaskId arId tktype ∈ s.store.TaskIdPendingPool
    · simp [hopen, hmem, TaskManager.PutToTkChan, TaskManager.GetTask, hadd, hch]
    · simp [hopen, hmem, TaskManager.PutToTkChan, TaskManager.GetTask, hadd, hch]

/-- C16, witness: a registration on the open empty server and one on a server
whose store is closed. -/
theorem registerTask_outcome_witness :
    ((Arseeding.empty.registerTask aridZero "sync").2 = none
      ∧ (Arseeding.empty.registerTask aridZero "sync").1.store.TaskIdPendingPool
          = [assembleTaskId aridZero "sync"]
      ∧ (Arseeding.empty.registerTask aridZero "sync").1.taskMg.taskCh
          = [] ++ [assembleTaskId aridZero "sync"])
    ∧ ((({ Arseeding.empty with store := { Arseeding.empty.store with opened := false } } :
          Arseeding).registerTask aridZero "sync").2 = some .ErrDatabaseNotOpen
      ∧ (({ Arseeding.empty with store := { Arseeding.empty.store with opened := false } } :
          Arseeding).registerTask aridZero "sync").1.taskMg.GetTask aridZero "sync" = none) :=
  ⟨⟨by decide, by decide,
    ((registerTask_outcome Arseeding.empty aridZero "sync").2.2.1 (by decide)).2.2⟩,
   ⟨by decide,
    ((registerTask_outcome
      { Arseeding.empty with store := { Arseeding.empty.store with opened := false } }
      aridZero "sync").2.2.2 (by decide)).2.1⟩⟩

/-- C17, counterexample: nothing is stored under "id1" in the empty store;
after `Close`, which returns nil, `IsExistTxMeta("id1")` returns false, not
true: `LoadTxMeta` fails with `ErrDatabaseNotOpen`, which is not
`ErrNotExist`. -/
theorem IsExistTxMeta_closed_counterexample :
    Store.empty.Close.2 = none
    ∧ Store.empty.Close.1.BoltDb.TxMetaBucket.Get (stringBytes "id1") = none
    ∧ Store.empty.Close.1.LoadTxMeta txJson "id1" = .ret (none, some .ErrDatabaseNotOpen)
    ∧ Store.empty.Close.1.IsExistTxMeta txJson "id1" = .ret false
    ∧ Store.empty.Close.1.IsExistTxMeta txJson "id1" ≠ .ret true := by
  refine ⟨rfl, rfl, rfl, rfl, ?_⟩
  decide

/-- C17, amended: for every codec, store state and id: on an open store
`IsExistTxMeta(id)` returns true when no value is stored under the id in the
tx-meta bucket and false when one is stored; on a store that was closed it
returns false, whether or not a value is stored under the id. -/
theorem IsExistTxMeta_true_on_absence (J : Json Transaction) (s : Store) (arId : String) :
    (s.BoltDb.opened = true →
      (s.BoltDb.TxMetaBucket.Get (stringBytes arId) = none → s.IsExistTxMeta J arId = .ret true)
      ∧ (s.BoltDb.TxMetaBucket.Get (stringBytes arId) ≠ none →
          s.IsExistTxMeta J arId = .ret false))
    ∧ (s.BoltDb.opened = false → s.IsExistTxMeta J arId = .ret false) := by
  unfold Store.IsExistTxMeta
  rw [Store.LoadTxMeta_eq]
  cases hopen : s.BoltDb.opened
  · simp
  · cases hg : s.BoltDb.TxMetaBucket.Get (stringBytes arId) <;> simp

/-- C17, witness: after `SaveTxMeta(txOne)` on the empty store, the id "id1"
is stored and reads false, the id "id2" is not stored and reads true; after
`Close` the id "id2" reads false. -/
theorem IsExistTxMeta_true_on_absence_witness :
    (Store.empty.SaveTxMeta txJson txOne).2 = none
    ∧ (Store.empty.SaveTxMeta txJson txOne).1.IsExistTxMeta txJson "id1" = .ret false
    ∧ (Store.empty.SaveTxMeta txJson txOne).1.IsExistTxMeta txJson "id2" = .ret true
    ∧ (Store.empty.SaveTxMeta txJson txOne).1.Close.1.IsExistTxMeta txJson "id2" = .ret false :=
  ⟨rfl,
   ((IsExistTxMeta_true_on_absence txJson (Store.empty.SaveTxMeta txJson txOne).1 "id1").1 rfl).2
     (by decide),
   ((IsExistTxMeta_true_on_absence txJson (Store.empty.SaveTxMeta txJson txOne).1 "id2").1 rfl).1
     (by decide),
   (IsExistTxMeta_true_on_absence txJson (Store.empty.SaveTxMeta txJson txOne).1.Close.1 "id2").2
     rfl⟩

theorem beValue_append_zeros (b : Bytes) (n : Nat) :
    beValue (b ++ List.replicate n 0) = beValue b * 256 ^ n := by
  induction n with
  | zero => simp
  | succ n ih =>
    rw [List.replicate_succ', ← List.append_assoc]
    unfold beValue at ih ⊢
    rw [List.foldl_append, ih]
    simp [pow_succ, Nat.mul_assoc]

theorem beValue_putUint64 (v : Nat) : beValue (putUint64 v) = v % 2 ^ 64 := by
  simp only [beValue, putUint64, List.foldl]
  omega

/-- C18, the code at the failing input: `itob(1)` is the 8 bytes
0,0,0,0,0,0,0,1 followed by 56 zero bytes, so read as one big-endian integer
over its 64 bytes it has the value `256 ^ 56`, not 1. For every v the value of
`itob(v)` over its whole length is `v * 256 ^ 56` (v reduced to 64 bits): the
padding is on the right; only the first 8 bytes have the value v. -/
theorem itob_whole_length_value :
    itob 1 = [0, 0, 0, 0, 0, 0, 0, 1] ++ List.replicate 56 0
    ∧ (itob 1).length = 64
    ∧ beValue (itob 1) = 256 ^ 56
    ∧ beValue (itob 1) ≠ 1
    ∧ (∀ v, beValue (itob v) = v % 2 ^ 64 * 256 ^ 56)
    ∧ (∀ v, beValue ((itob v).take 8) = v % 2 ^ 64) := by
  have hall : ∀ v, beValue (itob v) = v % 2 ^ 64 * 256 ^ 56 := by
    intro v
    unfold itob
    rw [beValue_append_zeros, beValue_putUint64]
  refine ⟨by decide, by decide, ?_, ?_, hall, ?_⟩
  · rw [hall]
    norm_num
  · rw [hall]
    norm_num
  · intro v
    have ht : (itob v).take 8 = putUint64 v := by
      simp [itob, putUint64]
    rw [ht, beValue_putUint64]

theorem btoi_itob_mod (x : Nat) : btoi (itob x) = .ret (x % 2 ^ 64) := by
  simp only [itob, putUint64, List.cons_append, List.nil_append, btoi]
  congr 1
  omega

/-- C20: for every v below `2 ^ 64`, `btoi(itob(v)) = v`; `btoi` does not panic
on any value `itob` produces, which are the values `SaveAllDataEndOffset` and
`SaveTxDataEndOffSet` write; after a successful `SaveAllDataEndOffset(v)`,
which every open store gives, `LoadAllDataEndOffset` returns v; and on a store
without the record `LoadAllDataEndOffset` returns 0. -/
theorem LoadAllDataEndOffset_after_Save (s : Store) (v : Nat) (hv : v < 2 ^ 64) :
    btoi (itob v) = .ret v
    ∧ (∀ x, btoi (itob x) = .ret (x % 2 ^ 64))
    ∧ ((s.SaveAllDataEndOffset v).2 = none →
        (s.SaveAllDataEndOffset v).1.LoadAllDataEndOffset = .ret v)
    ∧ (s.BoltDb.opened = true → (s.SaveAllDataEndOffset v).2 = none)
    ∧ (s.BoltDb.ConstantsBucket.Get (stringBytes "allDataEndOffset") = none →
        s.LoadAllDataEndOffset = .ret 0) := by
  have hk : (stringBytes "allDataEndOffset").length = 16 := by decide
  have hi : (itob v).length = 64 := length_itob v
  refine ⟨btoi_itob v hv, btoi_itob_mod, ?_, ?_, ?_⟩
  · unfold Store.SaveAllDataEndOffset Store.LoadAllDataEndOffset DB.Update DB.View Bucket.Put
    cases hopen : s.BoltDb.opened
    · simp
    · simp [hk, hi, MaxKeySize, MaxValueSize, Bucket.Get_set_same, btoi_itob v hv, hopen]
  · intro hopen
    unfold Store.SaveAllDataEndOffset DB.Update Bucket.Put
    simp [hk, hi, MaxKeySize, MaxValueSize, hopen]
  · intro hg
    unfold Store.LoadAllDataEndOffset DB.View
    cases hopen : s.BoltDb.opened <;> simp [hg]

/-- C20, witness: the offset 77 saved on the empty store is loaded back, and
the empty store loads 0. -/
theorem LoadAllDataEndOffset_after_Save_witness :
    btoi (itob 77) = .ret 77
    ∧ (Store.empty.SaveAllDataEndOffset 77).2 = none
    ∧ (Store.empty.SaveAllDataEndOffset 77).1.LoadAllDataEndOffset = .ret 77
    ∧ Store.empty.LoadAllDataEndOffset = .ret 0 :=
  ⟨(LoadAllDataEndOffset_after_Save Store.empty 77 (by norm_num)).1,
   (LoadAllDataEndOffset_after_Save Store.empty 77 (by norm_num)).2.2.2.1 rfl,
   (LoadAllDataEndOffset_after_Save Store.empty 77 (by norm_num)).2.2.1 rfl,
   (LoadAllDataEndOffset_after_Save Store.empty 77 (by norm_num)).2.2.2.2 rfl⟩

/-- C15, counterexample: `txOne` and `txOther` have the same id; after
`SaveTxMeta(txOne)` and then `SaveTxMeta(txOther)` on the empty store, both
successful, the value stored under the id is the record of `txOther`, which
differs from the record written for `txOne`. -/
theorem SaveTxMeta_immutable_counterexample :
    txOne.ID = txOther.ID
    ∧ (Store.empty.SaveTxMeta txJson txOne).2 = none
    ∧ (Store.empty.SaveTxMeta txJson txOne).1.BoltDb.TxMetaBucket.Get (stringBytes txOne.ID)
        = (txJson.Marshal { txOne with Data := "" }).toOption
    ∧ ((Store.empty.SaveTxMeta txJson txOne).1.SaveTxMeta txJson txOther).2 = none
    ∧ ((Store.empty.SaveTxMeta txJson txOne).1.SaveTxMeta txJson txOther).1.BoltDb.TxMetaBucket.Get
        (stringBytes txOne.ID) = (txJson.Marshal { txOther with Data := "" }).toOption
    ∧ ((Store.empty.SaveTxMeta txJson txOne).1.SaveTxMeta txJson txOther).1.BoltDb.TxMetaBucket.Get
        (stringBytes txOne.ID)
        ≠ (Store.empty.SaveTxMeta txJson txOne).1.BoltDb.TxMetaBucket.Get (stringBytes txOne.ID) := by
  refine ⟨rfl, rfl, rfl, rfl, rfl, ?_⟩
  decide

/-- C15, amended: a stored tx meta is overwritten by a later save under the
same id. For every codec, store state and two transactions with the same ID,
after `SaveTxMeta(tx1)` and then a successful `SaveTxMeta(tx2)`, the value
stored under that ID in the tx-meta bucket is the record written for tx2 (tx2
marshalled with `Data` cleared). -/
theorem SaveTxMeta_overwrites (J : Json Transaction) (s : Store) (tx1 tx2 : Transaction)
    (hid : tx1.ID = tx2.ID)
    (hok : ((s.SaveTxMeta J tx1).1.SaveTxMeta J tx2).2 = none) :
    (J.Marshal { tx2 with Data := "" }).toOption
        = ((s.SaveTxMeta J tx1).1.SaveTxMeta J tx2).1.BoltDb.TxMetaBucket.Get (stringBytes tx1.ID)
    ∧ (J.Marshal { tx2 with Data := "" }).toOption ≠ none := by
  rw [hid]
  generalize (s.SaveTxMeta J tx1).1 = s1 at hok ⊢
  unfold Store.SaveTxMeta at hok ⊢
  cases hm : J.Marshal { tx2 with Data := "" } with
  | error e => simp [hm] at hok
  | ok js =>
    simp only [hm, DB.Update, Bucket.Put] at hok ⊢
    cases hopen : s1.BoltDb.opened
    · simp [hopen] at hok
    · by_cases h1 : (stringBytes tx2.ID).length = 0
      · simp [hopen, h1] at hok
      · by_cases h2 : (stringBytes tx2.ID).length > MaxKeySize
        · simp [hopen, h1, h2] at hok
        · by_cases h3 : js.length > MaxValueSize
          · simp [hopen, h1, h2, h3] at hok
          · simp [hopen, h1, h2, h3, Except.toOption, Bucket.Get_set_same]

/-- C15, witness: `txOther` saved over `txOne` on the empty store. -/
theorem SaveTxMeta_overwrites_witness :
    txOne.ID = txOther.ID
    ∧ (txJson.Marshal { txOther with Data := "" }).toOption
        = ((Store.empty.SaveTxMeta txJson txOne).1.SaveTxMeta txJson txOther).1.BoltDb.TxMetaBucket.Get
            (stringBytes txOne.ID) :=
  ⟨rfl, (SaveTxMeta_overwrites txJson Store.empty txOne txOther rfl rfl).1⟩

/-! ## Theorems on the submission of a bundle item -/

/-- The read loop leaves with at most `AllowMaxItemSize` bytes: the size check
comes before the read whose empty result ends the loop. -/
theorem submitItemLoop_done_length (AllowMaxItemSize : Nat) (reads : BodyReader) :
    ∀ (acc itemBinary : Bytes), submitItemLoop AllowMaxItemSize reads acc = .done itemBinary →
      itemBinary.length ≤ AllowMaxItemSize := by
  induction reads with
  | nil =>
    intro acc itemBinary h
    unfold submitItemLoop at h
    split at h
    · cases h
    · injection h with h
      subst h
      omega
  | cons r rest ih =>
    obtain ⟨data, err⟩ := r
    intro acc itemBinary h
    unfold submitItemLoop at h
    split at h
    · cases h
    · split at h
      · cases h
      · split at h
        · injection h with h
          subst h
          omega
        · exact ih _ _ h

/-- When every read is non-empty and the bytes read so far together with the
bytes still to come exceed `AllowMaxItemSize`, the read loop does not leave
with a byte string. -/
theorem submitItemLoop_not_done (AllowMaxItemSize : Nat) (reads : BodyReader) :
    ∀ (acc : Bytes), (∀ r ∈ reads, 1 ≤ r.1.length) →
      AllowMaxItemSize < acc.length + (reads.map (fun r => r.1.length)).sum →
      ∀ itemBinary, submitItemLoop AllowMaxItemSize reads acc ≠ .done itemBinary := by
  induction reads with
  | nil =>
    intro acc _ hlen itemBinary h
    unfold submitItemLoop at h
    simp only [List.map_nil, List.sum_nil, Nat.add_zero] at hlen
    rw [if_pos hlen] at h
    cases h
  | cons r rest ih =>
    obtain ⟨data, err⟩ := r
    intro acc hne hlen itemBinary h
    unfold submitItemLoop at h
    split at h
    · cases h
    · split at h
      · cases h
      · have hd : 1 ≤ data.length := hne (data, err) (List.mem_cons_self _ _)
        rw [if_neg (by omega)] at h
        refine ih (acc ++ data) (fun r hr => hne r (List.mem_cons_of_mem _ hr)) ?_ itemBinary h
        simp only [List.map_cons, List.sum_cons] at hlen
        simp only [List.length_append]
        omega

/-- C12: for every limit `AllowMaxItemSize`, decoder, processing step, header,
currency and request body delivered as any sequence of reads (of whatever
sizes, so in particular of at most 20480 bytes each), the byte string handed
to `DecodeBundleItem` has length at most `AllowMaxItemSize`; and a body of
more than `AllowMaxItemSize` bytes delivered in non-empty reads is answered
with 400 and neither decoded nor passed to `ProcessSubmitItem`. -/
theorem submitItem_size_limit (AllowMaxItemSize : Nat)
    (DecodeBundleItem : Bytes → Except Error BundleItem)
    (ProcessSubmitItem : BundleItem → String → Except Error Order)
    (contentType currency : String) (reads : BodyReader) :
    (∀ itemBinary,
        (submitItem AllowMaxItemSize DecodeBundleItem ProcessSubmitItem contentType (some reads)
          currency).decodeArg = some itemBinary → itemBinary.length ≤ AllowMaxItemSize)
    ∧ ((∀ r ∈ reads, 1 ≤ r.1.length) →
        AllowMaxItemSize < (reads.map (fun r => r.1.length)).sum →
        (submitItem AllowMaxItemSize DecodeBundleItem ProcessSubmitItem contentType (some reads)
          currency) = ⟨400, none, none, none⟩) := by
  constructor
  · intro itemBinary h
    unfold submitItem at h
    split at h
    · cases h
    · simp only at h
      split at h
      · cases h
      · cases h
      · next b hb =>
        have hle := submitItemLoop_done_length AllowMaxItemSize reads [] b hb
        split at h
        · injection h with h
          subst h
          exact hle
        · split at h <;>
          · injection h with h
            subst h
            exact hle
  · intro hne hlen
    unfold submitItem
    split
    · rfl
    · simp only
      split
      · rfl
      · rfl
      · next b hb =>
        exact absurd hb (submitItemLoop_not_done AllowMaxItemSize reads [] hne
          (by simpa using hlen) b)

/-- C12, witness: with the limit 3, a body of four bytes in two reads is
answered with 400 and not decoded; with the limit 4 the four bytes are handed
to the decoder. -/
theorem submitItem_size_limit_witness :
    submitItem 3 acceptItem acceptOrder "application/octet-stream"
        (some [([1, 2], none), ([3, 4], some ioEOF)]) "AR" = ⟨400, none, none, none⟩
    ∧ (submitItem 4 acceptItem acceptOrder "application/octet-stream"
        (some [([1, 2], none), ([3, 4], some ioEOF)]) "AR").decodeArg = some [1, 2, 3, 4]
    ∧ ([1, 2, 3, 4] : Bytes).length ≤ 4 :=
  ⟨(submitItem_size_limit 3 acceptItem acceptOrder "application/octet-stream" "AR"
      [([1, 2], none), ([3, 4], some ioEOF)]).2 (by decide) (by decide),
   by decide,
   (submitItem_size_limit 4 acceptItem acceptOrder "application/octet-stream" "AR"
      [([1, 2], none), ([3, 4], some ioEOF)]).1 [1, 2, 3, 4] (by decide)⟩

/-! ## Theorems on the orders table -/

/-- C13, counterexample: when the database yields the paid, waiting, sorted
orders with ids 2 and 1 in that order, `GetNeedOnChainOrdersSorted` returns
them in that order, which is not ascending in the id. -/
theorem GetNeedOnChainOrdersSorted_order_counterexample :
    (Wdb.mk ⟨[paidOrder 2, paidOrder 1]⟩).GetNeedOnChainOrdersSorted.1
        = [paidOrder 2, paidOrder 1]
    ∧ ((Wdb.mk ⟨[paidOrder 2, paidOrder 1]⟩).GetNeedOnChainOrdersSorted.1.map (fun o => o.ID))
        = [2, 1]
    ∧ ¬ ((Wdb.mk ⟨[paidOrder 2, paidOrder 1]⟩).GetNeedOnChainOrdersSorted.1.Pairwise
        (fun a b => a.ID < b.ID)) := by
  refine ⟨by decide, by decide, ?_⟩
  have h : (Wdb.mk ⟨[paidOrder 2, paidOrder 1]⟩).GetNeedOnChainOrdersSorted.1
      = [paidOrder 2, paidOrder 1] := by decide
  rw [h]
  simp [paidOrder]

/-- C13, amended: for every contents of the orders table,
`GetNeedOnChainOrdersSorted` returns only orders with payment_status = paid,
on_chain_status = waiting and sort = true, at most 2000 of them, in the order
in which the database yields the rows (the result is a sublist of the rows);
the returned list is in strictly ascending id order when the database yields
the rows in strictly ascending id order. -/
theorem GetNeedOnChainOrdersSorted_result (w : Wdb) :
    (∀ o ∈ w.GetNeedOnChainOrdersSorted.1,
        o.PaymentStatus = SuccPayment ∧ o.OnChainStatus = WaitOnChain ∧ o.SortFlag = true)
    ∧ w.GetNeedOnChainOrdersSorted.1.Sublist w.Db.orders
    ∧ w.GetNeedOnChainOrdersSorted.1.length ≤ 2000
    ∧ w.GetNeedOnChainOrdersSorted.2 = none
    ∧ (w.Db.orders.Pairwise (fun a b => a.ID < b.ID) →
        w.GetNeedOnChainOrdersSorted.1.Pairwise (fun a b => a.ID < b.ID)) := by
  have hsub : w.GetNeedOnChainOrdersSorted.1.Sublist w.Db.orders := by
    unfold Wdb.GetNeedOnChainOrdersSorted
    exact (List.take_sublist _ _).trans (List.filter_sublist _)
  refine ⟨?_, hsub, ?_, rfl, fun h => h.sublist hsub⟩
  · intro o ho
    unfold Wdb.GetNeedOnChainOrdersSorted at ho
    have hf := List.mem_of_mem_take ho
    simpa using (List.mem_filter.mp hf).2
  · unfold Wdb.GetNeedOnChainOrdersSorted
    simp [List.length_take]

/-- C13, witness: from rows with ids 1 (paid), 2 (unpaid), 3 (paid), yielded in
id order, the orders 1 and 3 are returned, in ascending id order. -/
theorem GetNeedOnChainOrdersSorted_result_witness :
    (Wdb.mk ⟨[paidOrder 1, unpaidOrder 2, paidOrder 3]⟩).GetNeedOnChainOrdersSorted.1
        = [paidOrder 1, paidOrder 3]
    ∧ (paidOrder 3).PaymentStatus = SuccPayment
    ∧ (Wdb.mk ⟨[paidOrder 1, unpaidOrder 2, paidOrder 3]⟩).GetNeedOnChainOrdersSorted.1.Pairwise
        (fun a b => a.ID < b.ID) :=
  ⟨by decide,
   ((GetNeedOnChainOrdersSorted_result (Wdb.mk ⟨[paidOrder 1, unpaidOrder 2, paidOrder 3]⟩)).1
      (paidOrder 3) (by decide)).1,
   (GetNeedOnChainOrdersSorted_result (Wdb.mk ⟨[paidOrder 1, unpaidOrder 2, paidOrder 3]⟩)).2.2.2.2
      (by simp [paidOrder, unpaidOrder])⟩

/-- C14, counterexample: `UpdateOrdToExpiredStatus` turns a paid order into an
expired one, `UpdateOrderPay` turns a paid order into an unpaid one, and
`UpdateOrderPay` turns an expired order into a paid one with a new payment id. -/
theorem order_updates_counterexample :
    (paidOrder 1).PaymentStatus = SuccPayment
    ∧ (((Wdb.mk ⟨[paidOrder 1]⟩).UpdateOrdToExpiredStatus 1).1.Db.orders.map
        (fun o => o.PaymentStatus)) = [ExpiredPayment]
    ∧ (((Wdb.mk ⟨[paidOrder 1]⟩).UpdateOrderPay 1 "hash" UnPayment none).1.orders.map
        (fun o => o.PaymentStatus)) = [UnPayment]
    ∧ (expiredOrder 1).PaymentStatus = ExpiredPayment
    ∧ (expiredOrder 1).PaymentId = ""
    ∧ (((Wdb.mk ⟨[expiredOrder 1]⟩).UpdateOrderPay 1 "hash" SuccPayment none).1.orders.map
        (fun o => (o.PaymentStatus, o.PaymentId))) = [(SuccPayment, "hash")]
    ∧ SuccPayment ≠ ExpiredPayment ∧ SuccPayment ≠ UnPayment := by
  decide

/-- C14, amended: the repository layer rejects no transition. For every orders
table, id, hash and status, `UpdateOrderPay(id, hash, status)` sets
payment_status to the status and payment_id to the hash in every row with
that id, whatever its payment_status was, and `UpdateOrdToExpiredStatus(id)`
sets payment_status to expired and on_chain_status to failed in every row with
that id, whatever its payment_status was; rows with another id are unchanged,
and both calls return a nil error. -/
theorem order_updates_by_id_only (w : Wdb) (id : Nat) (everHash paymentStatus : String)
    (k : Nat) (o : Order) (hk : w.Db.orders[k]? = some o) :
    (o.ID = id →
        (w.UpdateOrderPay id everHash paymentStatus none).1.orders[k]?
          = some { o with PaymentStatus := paymentStatus, PaymentId := everHash }
        ∧ (w.UpdateOrdToExpiredStatus id).1.Db.orders[k]?
          = some { o with PaymentStatus := ExpiredPayment, OnChainStatus := FailedOnChain })
    ∧ (o.ID ≠ id →
        (w.UpdateOrderPay id everHash paymentStatus none).1.orders[k]? = some o
        ∧ (w.UpdateOrdToExpiredStatus id).1.Db.orders[k]? = some o)
    ∧ (w.UpdateOrderPay id everHash paymentStatus none).1.orders.length = w.Db.orders.length
    ∧ (w.UpdateOrdToExpiredStatus id).1.Db.orders.length = w.Db.orders.length
    ∧ (w.UpdateOrderPay id everHash paymentStatus none).2 = none
    ∧ (w.UpdateOrdToExpiredStatus id).2 = none := by
  unfold Wdb.UpdateOrderPay Wdb.UpdateOrdToExpiredStatus
  refine ⟨fun h => ?_, fun h => ?_, by simp, by simp, rfl, rfl⟩
  · simp [List.getElem?_map, hk, h]
  · simp [List.getElem?_map, hk, h]

/-- C14, witness: in the table with the paid order 1 and the unpaid order 2,
`UpdateOrderPay(2, "hash", paid)` makes order 2 paid and leaves order 1, and
`UpdateOrdToExpiredStatus(1)` makes the paid order 1 expired. -/
theorem order_updates_by_id_only_witness :
    ((Wdb.mk ⟨[paidOrder 1, unpaidOrder 2]⟩).UpdateOrderPay 2 "hash" SuccPayment none).1.orders[1]?
        = some { unpaidOrder 2 with PaymentStatus := SuccPayment, PaymentId := "hash" }
    ∧ ((Wdb.mk ⟨[paidOrder 1, unpaidOrder 2]⟩).UpdateOrderPay 2 "hash" SuccPayment none).1.orders[0]?
        = some (paidOrder 1)
    ∧ ((Wdb.mk ⟨[paidOrder 1, unpaidOrder 2]⟩).UpdateOrdToExpiredStatus 1).1.Db.orders[0]?
        = some { paidOrder 1 with PaymentStatus := ExpiredPayment, OnChainStatus := FailedOnChain } :=
  ⟨((order_updates_by_id_only (Wdb.mk ⟨[paidOrder 1, unpaidOrder 2]⟩) 2 "hash" SuccPayment 1
      (unpaidOrder 2) rfl).1 rfl).1,
   ((order_updates_by_id_only (Wdb.mk ⟨[paidOrder 1, unpaidOrder 2]⟩) 2 "hash" SuccPayment 0
      (paidOrder 1) rfl).2.1 (by decide)).1,
   ((order_updates_by_id_only (Wdb.mk ⟨[paidOrder 1, unpaidOrder 2]⟩) 1 "hash" SuccPayment 0
      (paidOrder 1) rfl).1 rfl).2⟩

/-! ## Theorems on the termination of `getData` -/

theorem chunkLoads_append_chunk (reads : List Access) (o : Nat) :
    chunkLoads (reads ++ [Access.chunk o]) = chunkLoads reads + 1 := by
  simp [chunkLoads, List.filter_append]

theorem Bucket.Get_isBytes (b : Bucket) (key val : Bytes) (hb : b.isBytes = true)
    (hg : b.Get key = some val) : ∀ x ∈ val, x < 256 := by
  induction b with
  | nil => simp [Bucket.Get] at hg
  | cons p rest ih =>
    obtain ⟨k, v⟩ := p
    simp only [Bucket.isBytes, List.all_cons, Bool.and_eq_true, List.all_eq_true,
      decide_eq_true_eq] at hb
    unfold Bucket.Get at hg
    split at hg
    · injection hg with hg
      subst hg
      exact hb.1
    · refine ih ?_ hg
      simp only [Bucket.isBytes, List.all_eq_true, decide_eq_true_eq]
      exact hb.2

theorem btoi_lt (val : Bytes) (n : Nat) (hb : ∀ x ∈ val, x < 256) (h : btoi val = .ret n) :
    n < 2 ^ 64 := by
  unfold btoi at h
  split at h
  · next b0 b1 b2 b3 b4 b5 b6 b7 rest =>
    injection h with h
    have h0 := hb b0 (by simp)
    have h1 := hb b1 (by simp)
    have h2 := hb b2 (by simp)
    have h3 := hb b3 (by simp)
    have h4 := hb b4 (by simp)
    have h5 := hb b5 (by simp)
    have h6 := hb b6 (by simp)
    have h7 := hb b7 (by simp)
    omega
  · cases h

/-- The loop of `getData` ends within `k + 1` evaluations of its condition and
with at most `k` further chunk loads, when the cursor is at most `k` below the
end offset and every chunk that is loaded and decoded has at least one byte
and does not carry the cursor past `2 ^ 64`. -/
theorem getDataLoop_terminates (LoadChunk : Nat → Run (Option GetChunk × Option Error))
    (startOffset txDataEndOffset : Nat)
    (hdec : ∀ o chunk bytes, LoadChunk o = .ret (some chunk, none) →
      Base64Decode chunk.Chunk = .ok bytes →
      1 ≤ bytes.length ∧ txDataEndOffset + bytes.length ≤ 2 ^ 64) (k : Nat) :
    ∀ (fuel i : Nat) (data : Bytes) (reads : List Access),
      i + startOffset < 2 ^ 64 → txDataEndOffset - (i + startOffset) ≤ k → k + 1 ≤ fuel →
      ∃ res reads1, getDataLoop LoadChunk startOffset txDataEndOffset fuel i data reads
          = some (res, reads1) ∧ chunkLoads reads1 ≤ chunkLoads reads + k := by
  induction k with
  | zero =>
    intro fuel i data reads hlt hrem hfuel
    obtain ⟨fuel, rfl⟩ : ∃ f, fuel = f + 1 := ⟨fuel - 1, by omega⟩
    have hc : (i % 2 ^ 64 + startOffset) % 2 ^ 64 = i + startOffset := by omega
    unfold getDataLoop
    rw [hc, if_neg (by omega)]
    exact ⟨_, _, rfl, by omega⟩
  | succ k ih =>
    intro fuel i data reads hlt hrem hfuel
    obtain ⟨fuel, rfl⟩ : ∃ f, fuel = f + 1 := ⟨fuel - 1, by omega⟩
    have hc : (i % 2 ^ 64 + startOffset) % 2 ^ 64 = i + startOffset := by omega
    unfold getDataLoop
    rw [hc]
    split
    · next hcond =>
      simp only
      split
      · exact ⟨_, _, rfl, by rw [chunkLoads_append_chunk]; omega⟩
      · exact ⟨_, _, rfl, by rw [chunkLoads_append_chunk]; omega⟩
      · exact ⟨_, _, rfl, by rw [chunkLoads_append_chunk]; omega⟩
      · next chunk hl =>
        split
        · exact ⟨_, _, rfl, by rw [chunkLoads_append_chunk]; omega⟩
        · next chunkData hd =>
          have hb := hdec _ chunk chunkData hl hd
          obtain ⟨res, reads1, hr, hn⟩ := ih fuel (i + chunkData.length) (data ++ chunkData)
            (reads ++ [Access.chunk ((startOffset + i % 2 ^ 64) % 2 ^ 64)])
            (by omega) (by omega) (by omega)
          refine ⟨res, reads1, hr, ?_⟩
          rw [chunkLoads_append_chunk] at hn
          omega
    · exact ⟨_, _, rfl, by omega⟩

/-- A chunk that decodes to no bytes leaves the loop of `getData` in the same
place: the next evaluation loads the same offset, and no amount of fuel ends
the loop. -/
theorem getDataLoop_empty_chunk (LoadChunk : Nat → Run (Option GetChunk × Option Error))
    (startOffset txDataEndOffset i : Nat) (data : Bytes) (chunk : GetChunk)
    (hcond : (i % 2 ^ 64 + startOffset) % 2 ^ 64 < txDataEndOffset)
    (hload : LoadChunk ((startOffset + i % 2 ^ 64) % 2 ^ 64) = .ret (some chunk, none))
    (hdec : Base64Decode chunk.Chunk = .ok []) :
    (∀ (fuel : Nat) (reads : List Access),
        getDataLoop LoadChunk startOffset txDataEndOffset (fuel + 1) i data reads
          = getDataLoop LoadChunk startOffset txDataEndOffset fuel i data
              (reads ++ [Access.chunk ((startOffset + i % 2 ^ 64) % 2 ^ 64)]))
    ∧ (∀ (fuel : Nat) (reads : List Access),
        getDataLoop LoadChunk startOffset txDataEndOffset fuel i data reads = none) := by
  have hstep : ∀ (fuel : Nat) (reads : List Access),
      getDataLoop LoadChunk startOffset txDataEndOffset (fuel + 1) i data reads
        = getDataLoop LoadChunk startOffset txDataEndOffset fuel i data
            (reads ++ [Access.chunk ((startOffset + i % 2 ^ 64) % 2 ^ 64)]) := by
    intro fuel reads
    conv_lhs => unfold getDataLoop
    rw [if_pos hcond]
    simp only [hload, hdec, List.length_nil, Nat.add_zero, List.append_nil]
  refine ⟨hstep, ?_⟩
  intro fuel
  induction fuel with
  | zero => intro reads; rfl
  | succ fuel ih =>
    intro reads
    rw [hstep]
    exact ih _

/-- The store reads of a finished run of the loop of `getData` extend the
reads made before it. -/
theorem getDataLoop_chunkLoads_mono (LoadChunk : Nat → Run (Option GetChunk × Option Error))
    (startOffset txDataEndOffset : Nat) (fuel : Nat) :
    ∀ (i : Nat) (data : Bytes) (reads reads1 : List Access) (res : Run (Except Error Bytes)),
      getDataLoop LoadChunk startOffset txDataEndOffset fuel i data reads = some (res, reads1) →
      chunkLoads reads ≤ chunkLoads reads1 := by
  induction fuel with
  | zero => intro i data reads reads1 res h; simp [getDataLoop] at h
  | succ fuel ih =>
    intro i data reads reads1 res h
    unfold getDataLoop at h
    split at h
    · simp only at h
      split at h
      · simp only [Option.some.injEq, Prod.mk.injEq] at h
        rw [← h.2, chunkLoads_append_chunk]
        omega
      · simp only [Option.some.injEq, Prod.mk.injEq] at h
        rw [← h.2, chunkLoads_append_chunk]
        omega
      · simp only [Option.some.injEq, Prod.mk.injEq] at h
        rw [← h.2, chunkLoads_append_chunk]
        omega
      · split at h
        · simp only [Option.some.injEq, Prod.mk.injEq] at h
          rw [← h.2, chunkLoads_append_chunk]
          omega
        · have := ih _ _ _ _ _ h
          rw [chunkLoads_append_chunk] at this
          omega
    · simp only [Option.some.injEq, Prod.mk.injEq] at h
      rw [← h.2]

/-- C19, counterexample: the data size is 2, the end offset is `2 ^ 64 - 1` and
every chunk decodes to the three bytes 1, 2, 3 (at least one byte). The walk
starts at offset `2 ^ 64 - 2`; after the first chunk the 64-bit cursor wraps
around to offset 1, which is below the end offset again, so the walk goes on:
after two chunk loads `getData` has not returned, and no run of it returns
after at most `2 - 1` chunk loads. -/
theorem getData_chunk_loads_counterexample :
    ParseUint "2" = .ok 2
    ∧ loadEndMax "root" "2" = .ret (2 ^ 64 - 1, none)
    ∧ Base64Decode "AQID" = .ok [1, 2, 3]
    ∧ (∀ fuel, getDataWith loadEndMax loadThreeByteChunk (fuel + 2) "root" "2"
        = getDataLoop loadThreeByteChunk (2 ^ 64 - 2) (2 ^ 64 - 1) fuel 6 [1, 2, 3, 1, 2, 3]
            [Access.txDataEndOffSet "root" "2", Access.chunk (2 ^ 64 - 2), Access.chunk 1])
    ∧ getDataWith loadEndMax loadThreeByteChunk 2 "root" "2" = none
    ∧ ¬ ∃ fuel res reads, getDataWith loadEndMax loadThreeByteChunk fuel "root" "2"
          = some (res, reads) ∧ chunkLoads reads ≤ 2 - 1 := by
  have hstep : ∀ fuel, getDataWith loadEndMax loadThreeByteChunk (fuel + 2) "root" "2"
      = getDataLoop loadThreeByteChunk (2 ^ 64 - 2) (2 ^ 64 - 1) fuel 6 [1, 2, 3, 1, 2, 3]
          [Access.txDataEndOffSet "root" "2", Access.chunk (2 ^ 64 - 2), Access.chunk 1] :=
    fun _ => rfl
  refine ⟨rfl, rfl, rfl, hstep, rfl, ?_⟩
  rintro ⟨fuel, res, reads, h, hle⟩
  match fuel, h with
  | 0, h =>
    have h0 : getDataWith loadEndMax loadThreeByteChunk 0 "root" "2" = none := rfl
    rw [h0] at h
    cases h
  | 1, h =>
    have h1 : getDataWith loadEndMax loadThreeByteChunk 1 "root" "2" = none := rfl
    rw [h1] at h
    cases h
  | fuel + 2, h =>
    rw [hstep] at h
    have hm := getDataLoop_chunkLoads_mono _ _ _ _ _ _ _ _ _ h
    have h2 : chunkLoads [Access.txDataEndOffSet "root" "2", Access.chunk (2 ^ 64 - 2),
        Access.chunk 1] = 2 := by simp [chunkLoads]
    omega

/-- C19, amended: for every data_root, data_size n ≥ 1 and every pair of store
reads (the end offset read and the chunk loader) such that the end offset is
a 64-bit value e and every chunk that the walk loads and decodes has at least
one byte and at most `2 ^ 64 - e` bytes (so that the 64-bit cursor does not
wrap around), `getData` terminates, with fuel n or more, after at most n - 1
chunk loads; when n exceeds `maxAlloc` it panics in `make` before any read.
If a loaded chunk decodes to no bytes, the cursor does not advance, the same
offset is loaded again and the loop does not terminate. -/
theorem getData_chunk_loads_bound :
    (∀ (LoadTxDataEndOffSet : String → String → Run (Nat × Option Error))
        (LoadChunk : Nat → Run (Option GetChunk × Option Error))
        (fuel : Nat) (dataRoot dataSize : String) (n : Nat),
        ParseUint dataSize = .ok n → 1 ≤ n → n ≤ fuel →
        (∀ e err, LoadTxDataEndOffSet dataRoot dataSize = .ret (e, err) → e < 2 ^ 64) →
        (∀ e o chunk bytes, LoadTxDataEndOffSet dataRoot dataSize = .ret (e, none) →
          LoadChunk o = .ret (some chunk, none) → Base64Decode chunk.Chunk = .ok bytes →
          1 ≤ bytes.length ∧ e + bytes.length ≤ 2 ^ 64) →
        ∃ res reads, getDataWith LoadTxDataEndOffSet LoadChunk fuel dataRoot dataSize
            = some (res, reads) ∧ chunkLoads reads ≤ n - 1)
    ∧ (∀ (LoadTxDataEndOffSet : String → String → Run (Nat × Option Error))
        (LoadChunk : Nat → Run (Option GetChunk × Option Error))
        (fuel : Nat) (dataRoot dataSize : String) (n : Nat),
        ParseUint dataSize = .ok n → maxAlloc < n →
        getDataWith LoadTxDataEndOffSet LoadChunk fuel dataRoot dataSize = some (.panic, []))
    ∧ (∀ (LoadChunk : Nat → Run (Option GetChunk × Option Error))
        (startOffset txDataEndOffset i : Nat) (data : Bytes) (chunk : GetChunk),
        (i % 2 ^ 64 + startOffset) % 2 ^ 64 < txDataEndOffset →
        LoadChunk ((startOffset + i % 2 ^ 64) % 2 ^ 64) = .ret (some chunk, none) →
        Base64Decode chunk.Chunk = .ok [] →
        (∀ (fuel : Nat) (reads : List Access),
          getDataLoop LoadChunk startOffset txDataEndOffset (fuel + 1) i data reads
            = getDataLoop LoadChunk startOffset txDataEndOffset fuel i data
                (reads ++ [Access.chunk ((startOffset + i % 2 ^ 64) % 2 ^ 64)]))
        ∧ (∀ (fuel : Nat) (reads : List Access),
          getDataLoop LoadChunk startOffset txDataEndOffset fuel i data reads = none)) := by
  have hm : maxAlloc = 2 ^ 48 := rfl
  refine ⟨?_, ?_, ?_⟩
  · intro LoadEnd LoadChunk fuel dataRoot dataSize n hs hn hfuel hend hdec
    unfold getDataWith
    rw [hs]
    simp only
    rw [if_neg (by omega)]
    by_cases hbig : n > maxAlloc
    · rw [if_pos hbig]
      exact ⟨_, _, rfl, by simp [chunkLoads]⟩
    · rw [if_neg hbig]
      cases hl : LoadEnd dataRoot dataSize with
      | panic => exact ⟨_, _, rfl, by simp [chunkLoads]⟩
      | ret r =>
        obtain ⟨e, err⟩ := r
        cases err with
        | some err => exact ⟨_, _, rfl, by simp [chunkLoads]⟩
        | none =>
          have he : e < 2 ^ 64 := hend e none hl
          simp only
          obtain ⟨res, reads, hr, hc⟩ := getDataLoop_terminates LoadChunk
            ((e + 2 ^ 64 - n + 1) % 2 ^ 64) e (fun o chunk bytes => hdec e o chunk bytes hl)
            (n - 1) fuel 0 [] [Access.txDataEndOffSet dataRoot dataSize]
            (by omega) (by omega) (by omega)
          refine ⟨res, reads, hr, ?_⟩
          have h0 : chunkLoads [Access.txDataEndOffSet dataRoot dataSize] = 0 := by
            simp [chunkLoads]
          omega
  · intro LoadEnd LoadChunk fuel dataRoot dataSize n hs hbig
    unfold getDataWith
    rw [hs]
    simp only
    rw [if_neg (by omega), if_pos hbig]
  · intro LoadChunk startOffset txDataEndOffset i data chunk hcond hload hdec
    exact getDataLoop_empty_chunk LoadChunk startOffset txDataEndOffset i data chunk hcond hload
      hdec

/-- C19, witness: with end offset 3, size 3 and one-byte chunks the walk
advances by one byte per load and `getData` returns the two bytes of offsets
1 and 2 after two loads; a size above `maxAlloc` panics without a read; and
with chunks of no bytes the loop does not end. -/
theorem getData_chunk_loads_bound_witness :
    (∃ res reads, getDataWith loadEndThree loadOneByteChunk 3 "root" "3" = some (res, reads)
        ∧ chunkLoads reads ≤ 3 - 1)
    ∧ getDataWith loadEndThree loadOneByteChunk 3 "root" "3"
        = some (.ret (.ok [1, 1]),
            [Access.txDataEndOffSet "root" "3", Access.chunk 1, Access.chunk 2])
    ∧ getDataWith loadEndThree loadOneByteChunk 3 "root" "281474976710657" = some (.panic, [])
    ∧ (∀ fuel reads, getDataLoop loadEmptyChunk 1 3 fuel 0 [] reads = none) :=
  ⟨getData_chunk_loads_bound.1 loadEndThree loadOneByteChunk 3 "root" "3" 3 rfl (by decide)
     (by decide)
     (by
       intro e err hl
       simp only [loadEndThree, Run.ret.injEq, Prod.mk.injEq] at hl
       omega)
     (by
       intro e o chunk bytes he hl hd
       have hc : chunk = chunkOneByte := by
         simp only [loadOneByteChunk, Run.ret.injEq, Prod.mk.injEq, Option.some.injEq,
           and_true] at hl
         exact hl.symm
       subst hc
       have h1 : Base64Decode chunkOneByte.Chunk = .ok [1] := rfl
       rw [h1] at hd
       injection hd with hd
       subst hd
       simp only [loadEndThree, Run.ret.injEq, Prod.mk.injEq, and_true] at he
       subst he
       norm_num),
   rfl,
   getData_chunk_loads_bound.2.1 loadEndThree loadOneByteChunk 3 "root" "281474976710657"
     281474976710657 rfl (by decide),
   (getData_chunk_loads_bound.2.2 loadEmptyChunk 1 3 0 [] { chunkOneByte with Chunk := "" }
     (by decide) rfl rfl).2⟩

end Seeding
